import Mathlib

/-!
Verification of the site-crawler and audit-scoring components of the
web/social audit tool-set (`web_audit_new.py`, `socials_audit.py`).

The crawler (`crawl_site` / `_crawl_with_playwright`) and its helpers
(`_normalize_url`, `_is_valid_url`, `_should_crawl_url`) delegate URL
parsing to CPython 3.11's `urllib.parse`.  The first section is a
shallow embedding of the relevant parts of that library (`urlsplit`,
`urlparse`, `urlunsplit`, `urlunparse`, `urljoin`), operating on
`List Char` (Python `str` values).  Notes on fidelity:

* `urlsplit`'s removal of the unsafe bytes tab/CR/LF is modelled
  (`removeUnsafe`).  Its two exceptional paths — the "Invalid IPv6 URL"
  `ValueError` for an unbalanced bracket in the netloc, and the
  `_checknetloc` NFKC check for non-ASCII netlocs — are modelled as the
  predicate `urlsplitRaisesL` (bracket condition only; the NFKC check
  needs Unicode normalisation tables and is elided).  The functions in
  the repository that wrap their `urlparse` calls in `try/except`
  (`_is_valid_url`, `_should_crawl_url`) consult this predicate;
  `urljoin` itself is modelled as a total function.
* Python truthiness of strings/lists is emptiness, and `s.lower()` /
  `str.isalpha` on the ASCII scheme characters coincide with
  `Char.toLower` / `Char.isAlpha`.

Page rendering, the DOM, HTTP and wall-clock time are external
collaborators; they enter the model as explicit oracle arguments
(a `fetch` function for the crawler, an HTTP outcome for robots.txt).
The unbounded `while` loop of `_crawl_with_playwright` is made total
with a fuel parameter; every theorem below holds for every fuel value.
-/

namespace WebAudit

/-- Python `_UNSAFE_URL_BYTES_TO_REMOVE = ['\t', '\r', '\n']`. -/
def isUnsafeChar (c : Char) : Bool := c = '\t' || c = '\r' || c = '\n'

/-- The `url.replace(b, "")` loop at the top of `urlsplit`. -/
def removeUnsafe (l : List Char) : List Char := l.filter (fun c => !(isUnsafeChar c))

/-- Python `scheme_chars`: letters, digits, `+`, `-`, `.`. -/
def isSchemeChar (c : Char) : Bool := c.isAlpha || c.isDigit || c = '+' || c = '-' || c = '.'

/-- The three delimiters `_splitnetloc` stops at: `/`, `?`, `#`. -/
def isNetlocDelim (c : Char) : Bool := c = '/' || c = '?' || c = '#'

/-- Scheme extraction step of `urlsplit`: take the text before the first
colon when it is a well-formed scheme (nonempty, initial ASCII letter,
all scheme characters), lower-cased; otherwise the default scheme. -/
def splitSchemeL (url : List Char) (dscheme : List Char) : List Char × List Char :=
  let pre := url.takeWhile (fun c => c ≠ ':')
  if pre.length < url.length ∧ pre ≠ [] ∧
      (url.head?.elim false Char.isAlpha) = true ∧
      pre.all isSchemeChar = true then
    (pre.map Char.toLower, url.drop (pre.length + 1))
  else (dscheme, url)

/-- Result of `urlsplit`: the 5-tuple (scheme, netloc, path, query, fragment). -/
structure UrlSplit where
  scheme : List Char
  netloc : List Char
  path : List Char
  query : List Char
  fragment : List Char
deriving Repr, DecidableEq

/-- Python `_splitnetloc` applied when the rest starts with `//`:
netloc up to the first of `/?#`, remainder after it.  When there is no
`//` prefix the netloc is empty and the rest is unchanged. -/
def splitNetlocL (rest1 : List Char) : List Char × List Char :=
  if ("//".data.isPrefixOf rest1) = true then
    ((rest1.drop 2).takeWhile (fun c => !(isNetlocDelim c)),
     (rest1.drop 2).dropWhile (fun c => !(isNetlocDelim c)))
  else ([], rest1)

/-- CPython 3.11 `urlsplit(url, scheme)` with `allow_fragments=True`
(the only form the repository uses). -/
def urlsplitL (url0 : List Char) (dscheme0 : List Char) : UrlSplit :=
  let url1 := removeUnsafe url0
  let ds := removeUnsafe dscheme0
  let sr := splitSchemeL url1 ds
  let scheme := sr.1
  let rest1 := sr.2
  let nr := splitNetlocL rest1
  let netloc := nr.1
  let rest2 := nr.2
  let fr :=
    if '#' ∈ rest2 then
      (rest2.takeWhile (fun c => c ≠ '#'), (rest2.dropWhile (fun c => c ≠ '#')).drop 1)
    else (rest2, [])
  let rest3 := fr.1
  let fragment := fr.2
  let qr :=
    if '?' ∈ rest3 then
      (rest3.takeWhile (fun c => c ≠ '?'), (rest3.dropWhile (fun c => c ≠ '?')).drop 1)
    else (rest3, [])
  ⟨scheme, netloc, qr.1, qr.2, fragment⟩

/-- The condition under which `urlsplit` raises `ValueError("Invalid IPv6 URL")`:
an unbalanced square bracket in the netloc.  (The scheme argument does not
influence it.) -/
def urlsplitRaisesL (url0 : List Char) : Bool :=
  let url1 := removeUnsafe url0
  let rest1 := (splitSchemeL url1 []).2
  let n := (splitNetlocL rest1).1
  decide ((('[' ∈ n) ∧ (']' ∉ n)) ∨ ((']' ∈ n) ∧ ('[' ∉ n)))

/-- Python `uses_relative`. -/
def usesRelative : List (List Char) :=
  ["", "ftp", "http", "gopher", "nntp", "imap", "wais", "file", "https", "shttp",
   "mms", "prospero", "rtsp", "rtspu", "sftp", "svn", "svn+ssh", "ws", "wss"].map String.data

/-- Python `uses_netloc`. -/
def usesNetloc : List (List Char) :=
  ["", "ftp", "http", "gopher", "nntp", "telnet", "imap", "wais", "file", "mms",
   "https", "shttp", "snews", "prospero", "rtsp", "rtspu", "rsync", "svn",
   "svn+ssh", "sftp", "nfs", "git", "git+ssh", "ws", "wss"].map String.data

/-- Python `uses_params`. -/
def usesParams : List (List Char) :=
  ["", "ftp", "hdl", "prospero", "http", "imap", "https", "shttp", "rtsp",
   "rtspu", "sip", "sips", "mms", "sftp", "tel"].map String.data

/-- Python `_splitparams`: split `;params` off the last path segment. -/
def splitparamsL (url : List Char) : List Char × List Char :=
  if '/' ∈ url then
    let lastSeg := (url.reverse.takeWhile (fun c => c ≠ '/')).reverse
    let front := url.take (url.length - lastSeg.length)
    if ';' ∈ lastSeg then
      (front ++ lastSeg.takeWhile (fun c => c ≠ ';'),
       (lastSeg.dropWhile (fun c => c ≠ ';')).drop 1)
    else (url, [])
  else
    if ';' ∈ url then
      (url.takeWhile (fun c => c ≠ ';'), (url.dropWhile (fun c => c ≠ ';')).drop 1)
    else (url, [])

/-- Result of `urlparse`: the 6-tuple with params split off the path. -/
structure UrlParse where
  scheme : List Char
  netloc : List Char
  path : List Char
  params : List Char
  query : List Char
  fragment : List Char
deriving Repr, DecidableEq

/-- CPython 3.11 `urlparse(url, scheme)`. -/
def urlparseL (url : List Char) (dscheme : List Char) : UrlParse :=
  let s := urlsplitL url dscheme
  if s.scheme ∈ usesParams ∧ ';' ∈ s.path then
    let pp := splitparamsL s.path
    ⟨s.scheme, s.netloc, pp.1, pp.2, s.query, s.fragment⟩
  else ⟨s.scheme, s.netloc, s.path, [], s.query, s.fragment⟩

/-- CPython 3.11 `urlunsplit`. -/
def urlunsplitL (scheme netloc path query fragment : List Char) : List Char :=
  let u1 :=
    if netloc ≠ [] ∨ (scheme ≠ [] ∧ scheme ∈ usesNetloc ∧ ¬ (("//".data.isPrefixOf path) = true)) then
      let p := if path ≠ [] ∧ ¬ (("/".data.isPrefixOf path) = true) then '/' :: path else path
      '/' :: '/' :: (netloc ++ p)
    else path
  let u2 := if scheme ≠ [] then scheme ++ ':' :: u1 else u1
  let u3 := if query ≠ [] then u2 ++ '?' :: query else u2
  if fragment ≠ [] then u3 ++ '#' :: fragment else u3

/-- CPython 3.11 `urlunparse`. -/
def urlunparseL (scheme netloc path params query fragment : List Char) : List Char :=
  let p := if params ≠ [] then path ++ ';' :: params else path
  urlunsplitL scheme netloc p query fragment

/-- The segment-resolution loop of `urljoin` (`resolved_path` with `.`/`..`
handling; popping an empty list is a no-op, as in the `except IndexError`). -/
def resolveSegments (acc : List (List Char)) : List (List Char) → List (List Char)
  | [] => acc
  | seg :: rest =>
    if seg = "..".data then resolveSegments acc.dropLast rest
    else if seg = ".".data then resolveSegments acc rest
    else resolveSegments (acc ++ [seg]) rest

/-- Python `segments[1:-1] = filter(None, segments[1:-1])`: drop empty
segments strictly between the first and the last. -/
def filterMiddleSegs (segs : List (List Char)) : List (List Char) :=
  match segs with
  | [] => []
  | [a] => [a]
  | a :: b :: rest =>
    a :: ((b :: rest).dropLast.filter (fun s => s ≠ []) ++
          [(b :: rest).getLast (List.cons_ne_nil b rest)])

/-- CPython 3.11 `urljoin(base, url)` (with `allow_fragments=True`). -/
def urljoinL (base url : List Char) : List Char :=
  if base = [] then url
  else if url = [] then base
  else
    let b := urlparseL base []
    let u := urlparseL url b.scheme
    if u.scheme ≠ b.scheme ∨ u.scheme ∉ usesRelative then url
    else if u.scheme ∈ usesNetloc ∧ u.netloc ≠ [] then
      urlunparseL u.scheme u.netloc u.path u.params u.query u.fragment
    else
      let netloc := if u.scheme ∈ usesNetloc then b.netloc else u.netloc
      if u.path = [] ∧ u.params = [] then
        let q := if u.query = [] then b.query else u.query
        urlunparseL u.scheme netloc b.path b.params q u.fragment
      else
        let baseParts0 := List.splitOn '/' b.path
        let baseParts := if baseParts0.getLast? ≠ some [] then baseParts0.dropLast else baseParts0
        let segments :=
          if ("/".data.isPrefixOf u.path) = true then List.splitOn '/' u.path
          else filterMiddleSegs (baseParts ++ List.splitOn '/' u.path)
        let resolved := resolveSegments [] segments
        let resolved2 :=
          if segments.getLast? = some ".".data ∨ segments.getLast? = some "..".data then
            resolved ++ [[]]
          else resolved
        let joined := List.intercalate "/".data resolved2
        let fpath := if joined = [] then "/".data else joined
        urlunparseL u.scheme netloc fpath u.params u.query u.fragment

/-- Python `s.startswith(p)` on strings. -/
def pyStartsWith (s p : String) : Bool := p.data.isPrefixOf s.data

/-- String-level `urljoin`. -/
def urljoin (base url : String) : String := ⟨urljoinL base.data url.data⟩

/-- `urlparse(s).scheme` as a string. -/
def urlparseScheme (s : String) : String := ⟨(urlparseL s.data []).scheme⟩

/-- `urlparse(s).netloc` as a string. -/
def urlparseNetloc (s : String) : String := ⟨(urlparseL s.data []).netloc⟩

/-- `_normalize_url` (web_audit_new.py lines 256-271). -/
def normalize_url (url : String) (base_url : String) : String :=
  if url = "" then ""
  else if pyStartsWith url "http://" || pyStartsWith url "https://" then url
  else if pyStartsWith url "//" then urlparseScheme base_url ++ ":" ++ url
  else urljoin base_url url

/-- `_is_valid_url` (web_audit_new.py lines 273-279): `urlparse` inside
`try/except`, then truthiness of scheme and netloc and a scheme whitelist. -/
def is_valid_url (url : String) : Bool :=
  if urlsplitRaisesL url.data = true then false
  else
    let p := urlparseL url.data []
    decide ((p.scheme ≠ [] ∧ p.netloc ≠ []) ∧ (p.scheme = "http".data ∨ p.scheme = "https".data))

/-- `_should_crawl_url` (web_audit_new.py lines 281-296). -/
def should_crawl_url (url : String) (base_domain : String) (visited : List String)
    (max_pages : Int) : Bool :=
  if url = "" ∨ url ∈ visited then false
  else if (visited.length : Int) ≥ max_pages then false
  else if urlsplitRaisesL url.data = true ∨ urlsplitRaisesL base_domain.data = true then false
  else decide (urlparseNetloc url = urlparseNetloc base_domain)

/-- The reconstructed base domain the crawler passes to `_should_crawl_url`
(web_audit_new.py line 2502). -/
def baseDomainOf (url : String) : String :=
  urlparseScheme url ++ "://" ++ urlparseNetloc url

/-- The same-domain classification used by `_get_internal_links`
(web_audit_new.py lines 1990-1999): lower-cased netloc equality, or a
dot-prefixed suffix match, or a `www.`-stripped match; links without a
netloc are skipped. -/
def is_internal_link (full_url : String) (base_url : String) : Bool :=
  let pu := urlparseL full_url.data []
  if pu.netloc = [] then false
  else
    let linkDomain := pu.netloc.map Char.toLower
    let baseDomain := (urlparseL base_url.data []).netloc.map Char.toLower
    decide (linkDomain = baseDomain) ||
    (('.' :: baseDomain).isSuffixOf linkDomain) ||
    (("www.".data.isPrefixOf linkDomain) && decide (linkDomain.drop 4 = baseDomain))

/-! ## The site crawler (`crawl_site` / `_crawl_with_playwright`,
web_audit_new.py lines 2290-2566)

Page rendering is the oracle `fetch : String → Except String PageData`:
`Except.ok` is a successful `page.goto` plus extraction (the extracted
facts being the oracle's answer), `Except.error e` is an exception whose
`str(e)` is `e`.  Wall-clock time (`crawl_time`) is not modelled; the
`unique_domains` set is modelled as an insertion-ordered deduplicated
list (CPython set iteration order is unspecified). -/

/-- The per-page facts extraction produces on a successful render:
title, status code, the links from `_extract_links_playwright`, the
categorized resources, metadata and truncated text. -/
structure PageData where
  title : String
  status_code : Int
  links : List String
  resources : List (String × List String)
  meta_data : List (String × String)
  text_content : String
deriving Repr, DecidableEq

/-- The `CrawlResult` dataclass (web_audit_new.py lines 230-241). -/
structure CrawlResult where
  url : String
  title : String
  status_code : Int
  links : List String
  resources : List (String × List String)
  meta_data : List (String × String)
  text_content : String
  error : Option String
deriving Repr, DecidableEq

/-- The mutable state of the crawl loop: `visited` (a set, kept here as a
duplicate-free insertion-ordered list), the FIFO frontier `to_visit`,
the results accumulated in completion order, the error strings, and the
`all_domains` set. -/
structure CrawlState where
  visited : List String
  to_visit : List String
  crawled_pages : List CrawlResult
  errors : List String
  all_domains : List String
deriving Repr, DecidableEq

/-- The success-branch result (web_audit_new.py lines 2490-2499);
`title or "No Title"` maps empty titles to `"No Title"`. -/
def successResult (current : String) (pd : PageData) : CrawlResult :=
  { url := current
    title := if pd.title = "" then "No Title" else pd.title
    status_code := pd.status_code
    links := pd.links
    resources := pd.resources
    meta_data := pd.meta_data
    text_content := pd.text_content
    error := none }

/-- The error-branch result (web_audit_new.py lines 2514-2523). -/
def errorResult (current : String) (e : String) : CrawlResult :=
  { url := current, title := "Error", status_code := 0, links := [], resources := []
    meta_data := [], text_content := "", error := some e }

/-- The enqueue loop (web_audit_new.py lines 2503-2506): each link is
appended iff `_should_crawl_url` accepts it and it is not already in the
frontier. -/
def enqueueLinks (links : List String) (base_domain : String) (visited : List String)
    (max_pages : Int) (queue : List String) : List String :=
  links.foldl
    (fun q link =>
      if should_crawl_url link base_domain visited max_pages = true ∧ link ∉ q then q ++ [link]
      else q)
    queue

/-- `all_domains.add(netloc)` on the insertion-ordered list model. -/
def addDomain (ds : List String) (d : String) : List String :=
  if d ∈ ds then ds else ds ++ [d]

/-- The `while to_visit and len(visited) < max_pages` loop
(web_audit_new.py lines 2439-2524), made total by fuel.  Every theorem
below holds for every fuel value. -/
def crawlLoop (fetch : String → Except String PageData) (startUrl : String)
    (max_pages : Int) : Nat → CrawlState → CrawlState
  | 0, s => s
  | fuel + 1, s =>
    match s.to_visit with
    | [] => s
    | current :: rest =>
      if (s.visited.length : Int) < max_pages then
        if current ∈ s.visited then
          crawlLoop fetch startUrl max_pages fuel { s with to_visit := rest }
        else
          let visited := s.visited ++ [current]
          match fetch current with
          | Except.ok pd =>
            crawlLoop fetch startUrl max_pages fuel
              { visited := visited
                to_visit := enqueueLinks pd.links (baseDomainOf startUrl) visited max_pages rest
                crawled_pages := s.crawled_pages ++ [successResult current pd]
                errors := s.errors
                all_domains := addDomain s.all_domains (urlparseNetloc current) }
          | Except.error e =>
            crawlLoop fetch startUrl max_pages fuel
              { visited := visited
                to_visit := rest
                crawled_pages := s.crawled_pages ++ [errorResult current e]
                errors := s.errors ++ ["Error crawling " ++ current ++ ": " ++ e]
                all_domains := s.all_domains }
      else s

/-- The initial state: frontier holds the start URL, everything else empty. -/
def initState (url : String) : CrawlState := ⟨[], [url], [], [], []⟩

/-- The summary part of the returned dict (web_audit_new.py lines
2529-2552), without the wall-clock `crawl_time`. -/
structure SiteCrawlSummary where
  total_pages : Nat
  total_links : Nat
  total_resources : Nat
  unique_domains : List String
  errors : List String
deriving Repr, DecidableEq

/-- The top-level result: either the `{"error": ...}` dict of a failed
validation, or the `{"summary": ..., "pages": [...]}` dict. -/
inductive CrawlOutput where
  | failure (msg : String)
  | success (summary : SiteCrawlSummary) (pages : List CrawlResult)
deriving Repr, DecidableEq

/-- `sum(sum(len(r) for r in page.resources.values()) for page in pages)`. -/
def totalResourcesOf (pages : List CrawlResult) : Nat :=
  (pages.map (fun p => (p.resources.map (fun r => r.2.length)).sum)).sum

/-- `_crawl_with_playwright` (web_audit_new.py lines 2425-2566): run the
loop and assemble the summary and page list. -/
def crawl_with_playwright (fetch : String → Except String PageData) (url : String)
    (max_pages : Int) (fuel : Nat) : CrawlOutput :=
  let s := crawlLoop fetch url max_pages fuel (initState url)
  CrawlOutput.success
    { total_pages := s.crawled_pages.length
      total_links := (s.crawled_pages.map (fun p => p.links.length)).sum
      total_resources := totalResourcesOf s.crawled_pages
      unique_domains := s.all_domains
      errors := s.errors }
    s.crawled_pages

/-- `crawl_site` (web_audit_new.py lines 2290-2423): validate the URL,
clamp `max_pages` at 100 (from above only), and crawl. -/
def crawl_site (fetch : String → Except String PageData) (url : String)
    (max_pages : Int) (fuel : Nat) : CrawlOutput :=
  if is_valid_url url = true then
    crawl_with_playwright fetch url (if max_pages > 100 then 100 else max_pages) fuel
  else CrawlOutput.failure "Invalid URL provided. URL must include http:// or https://"

/-- The pages list of a crawl output (empty for a validation failure). -/
def crawlPages : CrawlOutput → List CrawlResult
  | CrawlOutput.failure _ => []
  | CrawlOutput.success _ pg => pg

/-! ## Audit scoring functions

`_analyze_https_security` and `_analyze_accessibility_results`
(web_audit_new.py) and `_calculate_profile_score` (socials_audit.py).
The input dicts are modelled as structures whose fields are the values
the functions read (a missing key reads as the `.get` default, which is
the falsy value the field types encode).  Python floats are modelled as
rationals. -/

/-- The fields `_analyze_https_security` reads from `https_status`. -/
structure HttpsStatus where
  https_available : Bool
  http_redirects_to_https : Bool
deriving Repr, DecidableEq

/-- The fields `_analyze_https_security` reads from `ssl_info`:
`valid`, `certificate_info.days_until_expiry` (default 0),
`validation_errors` (default `[]`), `security_details.protocol`
(default `""`), `warnings` (default `[]`). -/
structure SslInfo where
  valid : Bool
  days_until_expiry : Int
  validation_errors : List String
  protocol : String
  warnings : List String
deriving Repr, DecidableEq

/-- The `compliance` sub-dict of the security analysis. -/
structure SecurityCompliance where
  has_https : Bool
  forces_https : Bool
  valid_certificate : Bool
  modern_tls : Bool
deriving Repr, DecidableEq

/-- The result of `_analyze_https_security`. -/
structure SecurityAnalysis where
  security_score : Nat
  security_issues : List String
  recommendations : List String
  compliance : SecurityCompliance
deriving Repr, DecidableEq

/-- `_analyze_https_security` (web_audit_new.py lines 1798-1887).
The `score` accumulator never goes negative, so it is a `Nat`. -/
def analyze_https_security (https_status : HttpsStatus) (ssl_info : SslInfo) : SecurityAnalysis :=
  -- HTTPS availability (25 points)
  let s1 : Nat := if https_status.https_available then 25 else 0
  let issues1 : List String := if https_status.https_available then [] else ["HTTPS is not available"]
  let recs1 : List String :=
    if https_status.https_available then ["Good: HTTPS is available"]
    else ["Critical: Enable HTTPS for secure connections"]
  -- HTTP to HTTPS redirect (25 points)
  let s2 := s1 + (if https_status.http_redirects_to_https then 25 else 0)
  let issues2 := issues1 ++ (if https_status.http_redirects_to_https then [] else ["HTTP does not redirect to HTTPS"])
  let recs2 := recs1 ++ (if https_status.http_redirects_to_https then ["Good: HTTP traffic is redirected to HTTPS"] else ["Important: Configure HTTP to HTTPS redirect"])
  -- SSL certificate validity (30 points)
  let s3 := s2 + (if ssl_info.valid then 30 else 0)
  let issues3 := issues2 ++
    (if ssl_info.valid then
      (if ssl_info.days_until_expiry < 30 then
        ["SSL certificate expires in " ++ toString ssl_info.days_until_expiry ++ " days"]
      else [])
    else ["SSL certificate is invalid"] ++ ssl_info.validation_errors.map (fun e => "Certificate error: " ++ e))
  let recs3 := recs2 ++ (if ssl_info.valid then ["Good: SSL certificate is valid"] else ["Critical: Fix SSL certificate issues"])
  -- TLS protocol version (20 points)
  let modern := ssl_info.protocol = "TLSv1.2" ∨ ssl_info.protocol = "TLSv1.3"
  let deprecated := ssl_info.protocol = "TLSv1.1" ∨ ssl_info.protocol = "TLSv1"
  let s4 := s3 + (if modern then 20 else if deprecated then 10 else 0)
  let issues4 := issues3 ++
    (if modern then []
     else if deprecated then ["Using deprecated TLS protocol: " ++ ssl_info.protocol]
     else ["Unknown or insecure protocol: " ++ ssl_info.protocol])
  let recs4 := recs3 ++
    (if modern then ["Good: Using modern TLS protocol (" ++ ssl_info.protocol ++ ")"]
     else if deprecated then ["Update to TLS 1.2 or 1.3 for better security"]
     else ["Ensure modern TLS protocol is being used"])
  -- SSL warnings
  let issues5 := issues4 ++ ssl_info.warnings.map (fun w => "SSL Warning: " ++ w)
  let finalScore := min s4 100
  let recs5 := recs4 ++
    (if finalScore ≥ 90 then ["Excellent HTTPS security configuration!"]
     else if finalScore ≥ 75 then ["Good HTTPS security with minor improvements needed"]
     else if finalScore ≥ 50 then ["HTTPS security needs improvement - address critical issues"]
     else ["Poor HTTPS security - immediate attention required"])
  { security_score := finalScore
    security_issues := issues5
    recommendations := recs5
    compliance :=
      { has_https := https_status.https_available
        forces_https := https_status.http_redirects_to_https
        valid_certificate := ssl_info.valid
        modern_tls := modern } }

/-- A violation dict is represented by its `impact` value, the only
field `_analyze_accessibility_results` reads (a missing key reads as
`"minor"`, the `.get` default); a pass entry is an opaque string. -/
structure AltTextResults where
  violations : List String
  passes : List String
  images_without_alt : Nat
deriving Repr, DecidableEq

/-- The contrast-check result fields read by the analyzer. -/
structure ContrastResults where
  violations : List String
  passes : List String
  contrast_violations : Nat
deriving Repr, DecidableEq

/-- The ARIA-check result fields read by the analyzer. -/
structure AriaResults where
  violations : List String
  passes : List String
  elements_without_labels : Nat
deriving Repr, DecidableEq

/-- The `violations_by_severity` sub-dict. -/
structure ViolationsBySeverity where
  critical : Nat
  serious : Nat
  moderate : Nat
  minor : Nat
deriving Repr, DecidableEq

/-- The result of `_analyze_accessibility_results`. -/
structure AccessibilityAnalysis where
  accessibility_score : Nat
  total_violations : Nat
  total_passes : Nat
  violations_by_severity : ViolationsBySeverity
  recommendations : List String
deriving Repr, DecidableEq

/-- `_analyze_accessibility_results` (web_audit_new.py lines 1186-1264).
Python computes `int((passes / (violations + passes)) * 100)` in float
arithmetic; it is modelled here with exact integer arithmetic (the
truncation of the exact ratio), which agrees on all realistic counts. -/
def analyze_accessibility_results (alt_results : AltTextResults)
    (contrast_results : ContrastResults) (aria_results : AriaResults) : AccessibilityAnalysis :=
  let total_violations :=
    alt_results.violations.length + contrast_results.violations.length + aria_results.violations.length
  let total_passes :=
    alt_results.passes.length + contrast_results.passes.length + aria_results.passes.length
  let score :=
    if total_violations + total_passes = 0 then 0
    else (total_passes * 100) / (total_violations + total_passes)
  let all_violations := alt_results.violations ++ contrast_results.violations ++ aria_results.violations
  let critical := (all_violations.filter (fun i => i = "critical")).length
  let serious := (all_violations.filter (fun i => i = "serious")).length
  let moderate := (all_violations.filter (fun i => i = "moderate")).length
  let minor := (all_violations.filter (fun i => i ≠ "critical" ∧ i ≠ "serious" ∧ i ≠ "moderate")).length
  let recs1 : List String :=
    (if alt_results.images_without_alt > 0 then
      ["Add alt attributes to " ++ toString alt_results.images_without_alt ++ " images without alt text"]
     else []) ++
    (if contrast_results.contrast_violations > 0 then
      ["Fix " ++ toString contrast_results.contrast_violations ++ " color contrast issues"]
     else []) ++
    (if aria_results.elements_without_labels > 0 then
      ["Add accessible labels to " ++ toString aria_results.elements_without_labels ++ " interactive elements"]
     else []) ++
    (if critical > 0 then
      ["Address critical accessibility violations first - they prevent users from accessing content"]
     else [])
  let recs2 := recs1 ++
    (if score ≥ 90 then ["Excellent accessibility! Consider manual testing with screen readers for final validation"]
     else if score ≥ 70 then ["Good accessibility foundation. Focus on fixing remaining violations"]
     else if score ≥ 50 then ["Accessibility needs improvement. Prioritize critical and serious violations"]
     else ["Significant accessibility barriers present. Comprehensive remediation needed"])
  { accessibility_score := score
    total_violations := total_violations
    total_passes := total_passes
    violations_by_severity := ⟨critical, serious, moderate, minor⟩
    recommendations := recs2 }

/-- The fields `_calculate_profile_score` reads from `profile_info`
(socials_audit.py).  Missing/empty strings are `""`; the
follower/following ratio is a float modelled as a rational. -/
structure ProfileInfo where
  profile_picture_url : String
  bio : String
  is_verified : Bool
  posts_count : Int
  follower_following_ratio : ℚ
  profile_name : String
deriving Repr, DecidableEq

/-- `_calculate_profile_score` (socials_audit.py lines 486-532). -/
def calculate_profile_score (profile_info : ProfileInfo) : Nat :=
  let s1 : Nat := if profile_info.profile_picture_url ≠ "" then 10 else 0
  let s2 := s1 + (if profile_info.bio ≠ "" then (if profile_info.bio.length > 50 then 20 else 10) else 0)
  let s3 := s2 + (if profile_info.is_verified then 15 else 0)
  let s4 := s3 +
    (if profile_info.posts_count ≥ 100 then 20
     else if profile_info.posts_count ≥ 50 then 15
     else if profile_info.posts_count ≥ 20 then 10
     else if profile_info.posts_count ≥ 5 then 5
     else 0)
  let s5 := s4 +
    (if profile_info.follower_following_ratio ≥ 10 then 20
     else if profile_info.follower_following_ratio ≥ 5 then 15
     else if profile_info.follower_following_ratio ≥ 2 then 10
     else if profile_info.follower_following_ratio ≥ 1 then 5
     else 0)
  let s6 := s5 + (if profile_info.profile_name ≠ "" then 15 else 0)
  min s6 100

/-! ## robots.txt checking (`_fetch_robots_txt`, `_parse_robots_txt`,
`_analyze_robots_txt`, `check_robots_txt`)

The HTTP request is the oracle `RobotsFetchOutcome`: either the server
answered (with a status code, body text, elapsed time and content type)
or the request raised one of the exception classes `_fetch_robots_txt`
catches.  The `audit_info` block (wall-clock metadata) is not modelled. -/

/-- Python whitespace for `str.strip()` (ASCII part). -/
def pyIsSpace (c : Char) : Bool :=
  c = ' ' || c = '\t' || c = '\n' || c = '\r' || c = '\x0b' || c = '\x0c'

/-- Python `s.strip()`. -/
def pyStrip (s : String) : String :=
  ⟨((s.data.dropWhile pyIsSpace).reverse.dropWhile pyIsSpace).reverse⟩

/-- Digits to a natural number. -/
def digitsVal (l : List Char) : ℕ :=
  l.foldl (fun a c => a * 10 + (c.toNat - '0'.toNat)) 0

/-- Nonempty all-digit check. -/
def allDigits (l : List Char) : Bool := !l.isEmpty && l.all Char.isDigit

/-- Python `float(value)` on plain decimal literals: optional sign,
integer/fraction digits, optional exponent.  (`inf`, `nan`, hex floats
and underscore grouping are not modelled; on those this parser fails,
which the caller reports as an invalid value.) -/
def parseFloatQ (s : String) : Option ℚ :=
  let l := s.data
  let sl : ℚ × List Char :=
    match l with
    | '+' :: t => (1, t)
    | '-' :: t => (-1, t)
    | t => (1, t)
  let mant := sl.2.takeWhile (fun c => c ≠ 'e' ∧ c ≠ 'E')
  let expPart := (sl.2.dropWhile (fun c => c ≠ 'e' ∧ c ≠ 'E')).drop 1
  let hasExp := mant.length < sl.2.length
  let intPart := mant.takeWhile (fun c => c ≠ '.')
  let fracPart := (mant.dropWhile (fun c => c ≠ '.')).drop 1
  let hasDot := intPart.length < mant.length
  if !(allDigits intPart || (hasDot ∧ allDigits fracPart)) then none
  else if hasDot ∧ ¬(intPart.all Char.isDigit ∧ fracPart.all Char.isDigit) then none
  else
    let mval : ℚ := (digitsVal intPart : ℚ) + (digitsVal fracPart : ℚ) / ((10 : ℚ) ^ fracPart.length)
    if hasExp then
      match expPart with
      | '+' :: d => if allDigits d then some (sl.1 * mval * 10 ^ (digitsVal d)) else none
      | '-' :: d => if allDigits d then some (sl.1 * mval / 10 ^ (digitsVal d)) else none
      | d => if allDigits d then some (sl.1 * mval * 10 ^ (digitsVal d)) else none
    else some (sl.1 * mval)

/-- A `{"line": ..., "content": ..., "error"/"warning": ...}` entry of
the parse result. -/
structure RobotsLineNote where
  line : Nat
  content : String
  note : String
deriving Repr, DecidableEq

/-- The per-user-agent rules dict. -/
structure UserAgentRules where
  allow : List String
  disallow : List String
  crawl_delay : Option ℚ
deriving Repr, DecidableEq

/-- The result of `_parse_robots_txt`; the two dicts keep insertion
order as association lists. -/
structure RobotsParsed where
  user_agents : List (String × UserAgentRules)
  sitemaps : List String
  crawl_delay : List (String × ℚ)
  host : Option String
  total_rules : Nat
  warnings : List RobotsLineNote
  errors : List RobotsLineNote
deriving Repr, DecidableEq

/-- Update the rules of an existing user agent in place. -/
def updateUA (uas : List (String × UserAgentRules)) (key : String)
    (f : UserAgentRules → UserAgentRules) : List (String × UserAgentRules) :=
  uas.map (fun kv => if kv.1 = key then (kv.1, f kv.2) else kv)

/-- Python dict assignment `m[k] = v` on an association list. -/
def setAssocQ (m : List (String × ℚ)) (k : String) (v : ℚ) : List (String × ℚ) :=
  if k ∈ m.map Prod.fst then m.map (fun kv => if kv.1 = k then (kv.1, v) else kv)
  else m ++ [(k, v)]

/-- The empty parse result. -/
def emptyRobotsParsed : RobotsParsed := ⟨[], [], [], none, 0, [], []⟩

/-- The line loop of `_parse_robots_txt` (web_audit_new.py lines
1363-1461), one recursive call per line. -/
def parseRobotsLines (acc : RobotsParsed) (cur : Option String) (line_num : Nat) :
    List String → RobotsParsed
  | [] => acc
  | rawLine :: rest =>
    let line := pyStrip ⟨rawLine.data.takeWhile (fun c => c ≠ '#')⟩
    if line = "" then parseRobotsLines acc cur (line_num + 1) rest
    else if ':' ∉ line.data then
      parseRobotsLines
        { acc with errors := acc.errors ++ [⟨line_num, line, "Invalid syntax: missing colon"⟩] }
        cur (line_num + 1) rest
    else
      let directive : String := ⟨(pyStrip ⟨line.data.takeWhile (fun c => c ≠ ':')⟩).data.map Char.toLower⟩
      let value := pyStrip ⟨(line.data.dropWhile (fun c => c ≠ ':')).drop 1⟩
      if value = "" ∧ directive ≠ "user-agent" then
        parseRobotsLines
          { acc with warnings := acc.warnings ++ [⟨line_num, line, "Empty value for directive"⟩] }
          cur (line_num + 1) rest
      else if directive = "user-agent" then
        let ua := if value = "" then "*" else value
        let uas :=
          if ua ∈ acc.user_agents.map Prod.fst then acc.user_agents
          else acc.user_agents ++ [(ua, ⟨[], [], none⟩)]
        parseRobotsLines { acc with user_agents := uas, total_rules := acc.total_rules + 1 }
          (some ua) (line_num + 1) rest
      else if directive = "allow" ∨ directive = "disallow" then
        match cur with
        | none =>
          let cap := if directive = "allow" then "Allow" else "Disallow"
          parseRobotsLines
            { acc with errors := acc.errors ++ [⟨line_num, line, cap ++ " directive without User-agent"⟩] }
            cur (line_num + 1) rest
        | some ua =>
          let uas := updateUA acc.user_agents ua (fun r =>
            if directive = "allow" then { r with allow := r.allow ++ [value] }
            else { r with disallow := r.disallow ++ [value] })
          parseRobotsLines { acc with user_agents := uas, total_rules := acc.total_rules + 1 }
            cur (line_num + 1) rest
      else if directive = "crawl-delay" then
        match cur with
        | none =>
          parseRobotsLines
            { acc with errors := acc.errors ++ [⟨line_num, line, "Crawl-delay directive without User-agent"⟩] }
            cur (line_num + 1) rest
        | some ua =>
          match parseFloatQ value with
          | some delay =>
            parseRobotsLines
              { acc with
                user_agents := updateUA acc.user_agents ua (fun r => { r with crawl_delay := some delay })
                crawl_delay := setAssocQ acc.crawl_delay ua delay
                total_rules := acc.total_rules + 1 }
              cur (line_num + 1) rest
          | none =>
            parseRobotsLines
              { acc with errors := acc.errors ++ [⟨line_num, line, "Invalid crawl-delay value: must be a number"⟩] }
              cur (line_num + 1) rest
      else if directive = "sitemap" then
        let warns :=
          if ¬ (pyStartsWith value "http://" || pyStartsWith value "https://") = true then
            acc.warnings ++ [⟨line_num, line, "Sitemap URL should be absolute (include http/https)"⟩]
          else acc.warnings
        parseRobotsLines
          { acc with
            warnings := warns
            sitemaps := acc.sitemaps ++ [value]
            total_rules := acc.total_rules + 1 }
          cur (line_num + 1) rest
      else if directive = "host" then
        parseRobotsLines { acc with host := some value, total_rules := acc.total_rules + 1 }
          cur (line_num + 1) rest
      else
        parseRobotsLines
          { acc with warnings := acc.warnings ++ [⟨line_num, line, "Unknown directive: " ++ directive⟩] }
          cur (line_num + 1) rest

/-- `_parse_robots_txt` (web_audit_new.py lines 1337-1463). -/
def parse_robots_txt (content : String) : RobotsParsed :=
  if content = "" then emptyRobotsParsed
  else
    parseRobotsLines emptyRobotsParsed none 1
      ((List.splitOn '\n' (pyStrip content).data).map (fun l => (⟨l⟩ : String)))

/-- The `summary` sub-dict of the robots analysis. -/
structure RobotsSummary where
  total_user_agents : Nat
  total_sitemaps : Nat
  has_crawl_delays : Bool
  has_errors : Bool
  has_warnings : Bool
  total_rules : Nat
deriving Repr, DecidableEq

/-- The `crawlability` sub-dict of the robots analysis. -/
structure Crawlability where
  completely_blocked : Bool
  partially_blocked : Bool
  major_sections_blocked : List String
  allows_crawling : Bool
deriving Repr, DecidableEq

/-- The result of `_analyze_robots_txt`. -/
structure RobotsAnalysis where
  summary : RobotsSummary
  recommendations : List String
  seo_impact : List String
  crawlability : Crawlability
deriving Repr, DecidableEq

/-- The `blocked_important` collection loop: disallow values containing
one of `/admin`, `/wp-admin`, `/private` (lower-cased substring test). -/
def blockedImportantOf (uas : List (String × UserAgentRules)) : List String :=
  uas.foldl
    (fun bs kv => bs ++ kv.2.disallow.filter (fun d =>
      let dl := d.data.map Char.toLower
      decide ("/admin".data <:+: dl) || decide ("/wp-admin".data <:+: dl) ||
        decide ("/private".data <:+: dl)))
    []

/-- `_analyze_robots_txt` (web_audit_new.py lines 1466-1554).  The
`base_url` parameter is unused by the source body and kept for shape;
the f-string rendering of the `high_delays` dict repr is elided from
the corresponding message. -/
def analyze_robots_txt (parsed_data : RobotsParsed) (base_url : String) : RobotsAnalysis :=
  let user_agents := parsed_data.user_agents
  let wildcard := user_agents.lookup "*"
  let completely_blocked :=
    match wildcard with
    | some r => decide ("/" ∈ r.disallow ∧ r.allow = [])
    | none => false
  let seo1 : List String :=
    if completely_blocked then ["Site completely blocks all crawlers - will hurt SEO"] else []
  let recs1 : List String :=
    if completely_blocked then ["Consider allowing at least major search engines to crawl your site"] else []
  let blocked_important := blockedImportantOf user_agents
  let recs2 := recs1 ++
    (if blocked_important ≠ [] then ["Good: Important admin/private sections are blocked from crawlers"] else [])
  let recs3 := recs2 ++
    (if parsed_data.sitemaps = [] then
      ["Consider adding sitemap URL(s) to help search engines discover content"]
     else
      let valid_sitemaps :=
        (parsed_data.sitemaps.filter
          (fun s => pyStartsWith s "http://" || pyStartsWith s "https://")).length
      if valid_sitemaps = parsed_data.sitemaps.length then
        ["Good: All sitemap URLs are properly formatted"]
      else ["Some sitemap URLs may be invalid - ensure they are absolute URLs"])
  let seo2 := seo1 ++
    (if parsed_data.sitemaps = [] then ["No sitemap specified - may slow content discovery"] else [])
  let high_delays := parsed_data.crawl_delay.filter (fun kv => kv.2 > 10)
  let seo3 := seo2 ++
    (if parsed_data.crawl_delay ≠ [] ∧ high_delays ≠ [] then ["High crawl delays detected"] else [])
  let recs4 := recs3 ++
    (if parsed_data.crawl_delay ≠ [] ∧ high_delays ≠ [] then
      ["Very high crawl delays may significantly slow indexing"]
     else [])
  let recs5 := recs4 ++
    (if parsed_data.errors ≠ [] then
      ["Fix " ++ toString parsed_data.errors.length ++ " syntax errors in robots.txt"]
     else [])
  let seo4 := seo3 ++
    (if parsed_data.errors ≠ [] then ["Syntax errors may cause rules to be ignored"] else [])
  let recs6 := recs5 ++
    (if parsed_data.warnings ≠ [] then
      ["Review " ++ toString parsed_data.warnings.length ++ " warnings in robots.txt"]
     else [])
  let search_engines : List String := ["googlebot", "bingbot", "slurp", "duckduckbot", "facebookexternalhit"]
  let has_specific_rules :=
    user_agents.any (fun kv => (⟨kv.1.data.map Char.toLower⟩ : String) ∈ search_engines)
  let recs7 := recs6 ++
    (if has_specific_rules then ["Good: Specific rules for major search engines detected"] else [])
  { summary :=
      { total_user_agents := user_agents.length
        total_sitemaps := parsed_data.sitemaps.length
        has_crawl_delays := decide (0 < parsed_data.crawl_delay.length)
        has_errors := decide (0 < parsed_data.errors.length)
        has_warnings := decide (0 < parsed_data.warnings.length)
        total_rules := parsed_data.total_rules }
    recommendations := recs7
    seo_impact := seo4
    crawlability :=
      { completely_blocked := completely_blocked
        partially_blocked := ¬completely_blocked ∧ blocked_important ≠ []
        major_sections_blocked := []
        allows_crawling := ¬completely_blocked } }

/-- The outcome of the `session.get` for robots.txt: a server response,
or one of the exception classes `_fetch_robots_txt` catches. -/
inductive RobotsFetchOutcome where
  | response (status_code : Int) (text : String) (elapsed : ℚ) (content_type : String)
  | timeout
  | connectionError
  | requestFailure (msg : String)
  | otherFailure (msg : String)
deriving Repr, DecidableEq

/-- The dict `_fetch_robots_txt` returns, with the keys the caller
reads (`.get` defaults fill the keys the error dicts omit). -/
structure RobotsFetchResult where
  success : Bool
  status_code : Int
  content : Option String
  url : String
  response_time : ℚ
  content_type : String
  content_length : Nat
  error : Option String
deriving Repr, DecidableEq

/-- `_fetch_robots_txt` (web_audit_new.py lines 1269-1334), given the
request outcome.  The library-missing branch is not modelled (the
`requests` dependency is assumed available). -/
def fetch_robots_txt (base_url : String) (outcome : RobotsFetchOutcome) : RobotsFetchResult :=
  let robots_url := urlparseScheme base_url ++ "://" ++ urlparseNetloc base_url ++ "/robots.txt"
  match outcome with
  | RobotsFetchOutcome.response status text elapsed ctype =>
    { success := true
      status_code := status
      content := if status = 200 then some text else none
      url := robots_url
      response_time := elapsed
      content_type := ctype
      content_length := if status = 200 then text.length else 0
      error := none }
  | RobotsFetchOutcome.timeout =>
    { success := false, status_code := 0, content := none, url := robots_url
      response_time := 0, content_type := "", content_length := 0
      error := some "Request timed out" }
  | RobotsFetchOutcome.connectionError =>
    { success := false, status_code := 0, content := none, url := robots_url
      response_time := 0, content_type := "", content_length := 0
      error := some "Could not connect to the server" }
  | RobotsFetchOutcome.requestFailure m =>
    { success := false, status_code := 0, content := none, url := robots_url
      response_time := 0, content_type := "", content_length := 0
      error := some ("Request failed: " ++ m) }
  | RobotsFetchOutcome.otherFailure m =>
    { success := false, status_code := 0, content := none, url := robots_url
      response_time := 0, content_type := "", content_length := 0
      error := some ("Unexpected error: " ++ m) }

/-- The `robots_txt_status` block of `check_robots_txt`. -/
structure RobotsTxtStatus where
  found : Bool
  accessible : Bool
  status_code : Int
  response_time : ℚ
  content_length : Nat
  content_type : String
  url : String
  error : Option String
deriving Repr, DecidableEq

/-- The top-level result of `check_robots_txt`: the invalid-URL error
dict, or the full result (whose `parsed_content` and `analysis` are set
on every path). -/
inductive RobotsCheckOutput where
  | failure (msg : String)
  | result (robots_txt_status : RobotsTxtStatus) (parsed_content : RobotsParsed)
      (analysis : RobotsAnalysis) (raw_content : Option String)
deriving Repr, DecidableEq

/-- `check_robots_txt` (web_audit_new.py lines 3098-3229), with the
HTTP request as oracle; `audit_info` (timing metadata) is elided. -/
def check_robots_txt (url : String) (outcome : RobotsFetchOutcome) : RobotsCheckOutput :=
  if is_valid_url url = true then
    let fr := fetch_robots_txt url outcome
    let status : RobotsTxtStatus :=
      { found := fr.success && decide (fr.status_code = 200)
        accessible := fr.success
        status_code := fr.status_code
        response_time := fr.response_time
        content_length := fr.content_length
        content_type := fr.content_type
        url := fr.url
        error := if fr.success then none else fr.error }
    -- `robots_txt_status["found"] and fetch_result.get("content")`:
    -- an empty body is falsy, like a missing one.
    if status.found = true ∧ fr.content.getD "" ≠ "" then
      let raw := fr.content.getD ""
      let parsed := parse_robots_txt raw
      RobotsCheckOutput.result status parsed (analyze_robots_txt parsed url) (some raw)
    else if status.accessible = true then
      let parsed := parse_robots_txt ""
      let analysis0 := analyze_robots_txt parsed url
      let analysis :=
        if fr.status_code = 404 then
          { analysis0 with
            seo_impact := analysis0.seo_impact ++
              ["No robots.txt found - search engines will crawl all accessible content"]
            recommendations := analysis0.recommendations ++
              ["Consider creating a robots.txt file to control crawler behavior"] }
        else analysis0
      RobotsCheckOutput.result status parsed analysis none
    else
      let parsed := parse_robots_txt ""
      let analysis0 := analyze_robots_txt parsed url
      RobotsCheckOutput.result status parsed
        { analysis0 with
          seo_impact := analysis0.seo_impact ++
            ["robots.txt inaccessible: " ++ fr.error.getD "Unknown error"]
          recommendations := analysis0.recommendations ++
            ["Ensure robots.txt is accessible at the domain root"] }
        none
  else RobotsCheckOutput.failure "Invalid URL provided. URL must include http:// or https://"

/-! ## Crawl-loop invariants -/

/-- Master preservation lemma for the crawl loop: a predicate stable
under the three loop transitions (skip of an already-visited URL,
successful page, failed page) holds of the loop's result whenever it
holds of the start state, for every fuel value. -/
theorem crawlLoop_inv (fetch : String → Except String PageData) (startUrl : String) (mp : Int)
    (P : CrawlState → Prop)
    (hskip : ∀ visited rest pages errs doms current,
      P ⟨visited, current :: rest, pages, errs, doms⟩ → current ∈ visited →
      ((visited.length : Int) < mp) →
      P ⟨visited, rest, pages, errs, doms⟩)
    (hok : ∀ visited rest pages errs doms current pd,
      P ⟨visited, current :: rest, pages, errs, doms⟩ → current ∉ visited →
      ((visited.length : Int) < mp) → fetch current = Except.ok pd →
      P ⟨visited ++ [current],
         enqueueLinks pd.links (baseDomainOf startUrl) (visited ++ [current]) mp rest,
         pages ++ [successResult current pd], errs,
         addDomain doms (urlparseNetloc current)⟩)
    (herr : ∀ visited rest pages errs doms current e,
      P ⟨visited, current :: rest, pages, errs, doms⟩ → current ∉ visited →
      ((visited.length : Int) < mp) → fetch current = Except.error e →
      P ⟨visited ++ [current], rest, pages ++ [errorResult current e],
         errs ++ ["Error crawling " ++ current ++ ": " ++ e], doms⟩) :
    ∀ (fuel : Nat) (s : CrawlState), P s → P (crawlLoop fetch startUrl mp fuel s) := by
  intro fuel
  induction fuel with
  | zero => intro s h; exact h
  | succ n ih =>
    intro s h
    obtain ⟨visited, tov, pages, errs, doms⟩ := s
    cases tov with
    | nil => exact h
    | cons current rest =>
      by_cases hb : ((visited.length : Int) < mp)
      · by_cases hm : current ∈ visited
        · have h' := hskip visited rest pages errs doms current h hm hb
          simpa [crawlLoop, hb, hm] using ih _ h'
        · cases hf : fetch current with
          | ok pd =>
            have h' := hok visited rest pages errs doms current pd h hm hb hf
            simpa [crawlLoop, hb, hm, hf] using ih _ h'
          | error e =>
            have h' := herr visited rest pages errs doms current e h hm hb hf
            simpa [crawlLoop, hb, hm, hf] using ih _ h'
      · simpa [crawlLoop, hb] using h

/-- The budget invariant of the crawl: there is exactly one result per
visited URL, and the visited count stays within the budget. -/
def budgetInv (mp : Int) (s : CrawlState) : Prop :=
  s.crawled_pages.length = s.visited.length ∧ (s.visited.length : Int) ≤ mp

/-- The budget invariant is preserved by the loop. -/
theorem crawlLoop_budgetInv (fetch : String → Except String PageData) (startUrl : String)
    (mp : Int) (fuel : Nat) (s : CrawlState) (h : budgetInv mp s) :
    budgetInv mp (crawlLoop fetch startUrl mp fuel s) := by
  refine crawlLoop_inv fetch startUrl mp (budgetInv mp) ?_ ?_ ?_ fuel s h
  · intro visited rest pages errs doms current h _ _
    exact h
  · intro visited rest pages errs doms current pd h _ hb _
    refine ⟨?_, ?_⟩
    · simpa [budgetInv] using h.1
    · simp only [budgetInv, List.length_append, List.length_cons, List.length_nil]
      omega
  · intro visited rest pages errs doms current e h _ hb _
    refine ⟨?_, ?_⟩
    · simpa [budgetInv] using h.1
    · simp only [budgetInv, List.length_append, List.length_cons, List.length_nil]
      omega

/-- The final loop state reached by `crawl_site` after validation and
clamping (the body of `_crawl_with_playwright`). -/
def crawlFinalState (fetch : String → Except String PageData) (url : String)
    (max_pages : Int) (fuel : Nat) : CrawlState :=
  crawlLoop fetch url (if max_pages > 100 then 100 else max_pages) fuel (initState url)

/-- C1 (amended: for a nonnegative `max_pages`).  For every crawl of a
valid URL with `0 ≤ max_pages`: the crawl succeeds; the returned pages
list has exactly one entry per visited URL (`len(pages) = |visited|`);
`len(pages) ≤ max_pages`; and `summary.total_pages = len(pages)`.
Moreover (second conjunct) the invariant "one result per visited URL
and `|visited| ≤ max_pages`" is preserved by every step of the
traversal, so `|visited|` never exceeds the budget at any point. -/
theorem crawl_budget_and_one_result_per_visit :
    (∀ (fetch : String → Except String PageData) (url : String) (mp : Int) (fuel : Nat),
      is_valid_url url = true → 0 ≤ mp →
      ∃ su pg, crawl_site fetch url mp fuel = CrawlOutput.success su pg ∧
        pg.length = (crawlFinalState fetch url mp fuel).visited.length ∧
        (pg.length : Int) ≤ mp ∧ su.total_pages = pg.length) ∧
    (∀ (fetch : String → Except String PageData) (url : String) (mp : Int) (fuel : Nat)
      (s : CrawlState), budgetInv mp s → budgetInv mp (crawlLoop fetch url mp fuel s)) := by
  constructor
  · intro fetch url mp fuel hv hm
    have hmc : (0 : Int) ≤ (if mp > 100 then 100 else mp) := by split <;> omega
    have hinv := crawlLoop_budgetInv fetch url (if mp > 100 then 100 else mp) fuel
      (initState url) ⟨rfl, by simpa [initState] using hmc⟩
    refine ⟨{ total_pages := (crawlFinalState fetch url mp fuel).crawled_pages.length
              total_links := ((crawlFinalState fetch url mp fuel).crawled_pages.map
                (fun p => p.links.length)).sum
              total_resources := totalResourcesOf (crawlFinalState fetch url mp fuel).crawled_pages
              unique_domains := (crawlFinalState fetch url mp fuel).all_domains
              errors := (crawlFinalState fetch url mp fuel).errors },
            (crawlFinalState fetch url mp fuel).crawled_pages, ?_, ?_, ?_, rfl⟩
    · simp [crawl_site, hv, crawl_with_playwright, crawlFinalState]
    · simpa [crawlFinalState] using hinv.1
    · have h2 := hinv.2
      rw [← hinv.1] at h2
      have hle : (if mp > 100 then 100 else mp) ≤ mp := by split <;> omega
      calc ((crawlFinalState fetch url mp fuel).crawled_pages.length : Int)
          ≤ (if mp > 100 then 100 else mp) := by simpa [crawlFinalState] using h2
        _ ≤ mp := hle
  · intro fetch url mp fuel s h
    exact crawlLoop_budgetInv fetch url mp fuel s h

/-- Witness for C1: a concrete two-page budget crawl of a start URL
whose fetch always fails still satisfies the amended claim. -/
theorem crawl_budget_and_one_result_per_visit_witness :
    is_valid_url "http://a" = true ∧ (0 : Int) ≤ 2 ∧
    (∃ su pg, crawl_site (fun _ => Except.error "net down") "http://a" 2 3 =
        CrawlOutput.success su pg ∧
      pg.length = (crawlFinalState (fun _ => Except.error "net down") "http://a" 2 3).visited.length ∧
      (pg.length : Int) ≤ 2 ∧ su.total_pages = pg.length) :=
  ⟨by decide, by decide,
    crawl_budget_and_one_result_per_visit.1 (fun _ => Except.error "net down") "http://a" 2 3
      (by decide) (by decide)⟩

/-- Counterexample for C1 as stated: with a valid URL and
`max_pages = -1`, `crawl_site` runs (the loop body never executes), the
visited set and page list are empty and of equal size, yet
`|visited| ≤ max_pages` fails because `0 > -1`.  The claim needs the
restriction `0 ≤ max_pages`. -/
theorem crawl_budget_counterexample :
    is_valid_url "http://a" = true ∧
    (crawlFinalState (fun _ => Except.error "x") "http://a" (-1) 5).visited = [] ∧
    crawlPages (crawl_site (fun _ => Except.error "x") "http://a" (-1) 5) = [] ∧
    ¬ (((crawlFinalState (fun _ => Except.error "x") "http://a" (-1) 5).visited.length : Int) ≤ -1) := by
  refine ⟨by decide, by decide, by decide, by decide⟩

/-- C5: an input URL that fails `_is_valid_url` (no valid absolute
http/https shape) makes `crawl_site` return the single top-level error
result, and no PageResult is produced (no traversal happens). -/
theorem crawl_invalid_url_rejected (fetch : String → Except String PageData) (url : String)
    (mp : Int) (fuel : Nat) (h : is_valid_url url = false) :
    crawl_site fetch url mp fuel =
      CrawlOutput.failure "Invalid URL provided. URL must include http:// or https://" ∧
    crawlPages (crawl_site fetch url mp fuel) = [] := by
  constructor
  · simp [crawl_site, h]
  · simp [crawl_site, h, crawlPages]

/-- Witness for C5 at the concrete invalid input `"notaurl"`. -/
theorem crawl_invalid_url_rejected_witness :
    crawl_site (fun _ => Except.error "x") "notaurl" 10 5 =
      CrawlOutput.failure "Invalid URL provided. URL must include http:// or https://" ∧
    crawlPages (crawl_site (fun _ => Except.error "x") "notaurl" 10 5) = [] :=
  crawl_invalid_url_rejected (fun _ => Except.error "x") "notaurl" 10 5 (by decide)

/-- The loop does nothing when the budget is not positive: the
condition `len(visited) < max_pages` is false at entry. -/
theorem crawlLoop_init_nonpos (fetch : String → Except String PageData) (url : String)
    (mp : Int) (fuel : Nat) (hm : mp ≤ 0) :
    crawlLoop fetch url mp fuel (initState url) = initState url := by
  cases fuel with
  | zero => rfl
  | succ n =>
    have h0 : ¬ ((0 : Int) < mp) := by omega
    simp [crawlLoop, initState, h0]

/-- C10: a valid URL with `max_pages ≤ 0` is not rejected: `crawl_site`
returns a success result (no top-level error) with an empty pages list
and `summary.total_pages = 0`, because `max_pages` is clamped only from
above and the loop condition is initially false. -/
theorem crawl_nonpositive_max_pages (fetch : String → Except String PageData) (url : String)
    (mp : Int) (fuel : Nat) (hv : is_valid_url url = true) (hm : mp ≤ 0) :
    crawl_site fetch url mp fuel =
      CrawlOutput.success ⟨0, 0, 0, [], []⟩ [] := by
  have hc : ¬ (mp > 100) := by omega
  have hloop := crawlLoop_init_nonpos fetch url mp fuel hm
  unfold crawl_site
  rw [if_pos hv, if_neg hc]
  unfold crawl_with_playwright
  rw [hloop]
  rfl

/-- Witness for C10 at `max_pages = -3`. -/
theorem crawl_nonpositive_max_pages_witness :
    crawl_site (fun _ => Except.error "x") "http://a" (-3) 7 =
      CrawlOutput.success ⟨0, 0, 0, [], []⟩ [] :=
  crawl_nonpositive_max_pages (fun _ => Except.error "x") "http://a" (-3) 7 (by decide) (by decide)

/-- C7: every score produced by the audit scoring functions lies in
[0, 100] for all inputs: the HTTPS security score, the accessibility
score, and the social profile score.  The scores are natural numbers in
the embedding, so the lower bound `0 ≤ score` is stated explicitly with
the upper bound.  Determinism ("identical extracted facts yield the
identical score") is inherent in the embedding: each analyzer is a pure
function of the structures holding exactly the fields the Python code
reads, so equal inputs give equal outputs by congruence. -/
theorem audit_scores_bounded :
    (∀ (hs : HttpsStatus) (si : SslInfo),
      0 ≤ (analyze_https_security hs si).security_score ∧
      (analyze_https_security hs si).security_score ≤ 100) ∧
    (∀ (a : AltTextResults) (c : ContrastResults) (r : AriaResults),
      0 ≤ (analyze_accessibility_results a c r).accessibility_score ∧
      (analyze_accessibility_results a c r).accessibility_score ≤ 100) ∧
    (∀ p : ProfileInfo, 0 ≤ calculate_profile_score p ∧ calculate_profile_score p ≤ 100) := by
  refine ⟨?_, ?_, ?_⟩
  · intro hs si
    refine ⟨Nat.zero_le _, ?_⟩
    simp only [analyze_https_security]
    exact Nat.min_le_right _ _
  · intro a c r
    refine ⟨Nat.zero_le _, ?_⟩
    simp only [analyze_accessibility_results]
    set tv := a.violations.length + c.violations.length + r.violations.length with htv
    set tp := a.passes.length + c.passes.length + r.passes.length with htp
    by_cases h0 : tv + tp = 0
    · simp [h0]
    · have hpos : 0 < tv + tp := Nat.pos_of_ne_zero h0
      have hmul : tp * 100 ≤ (tv + tp) * 100 :=
        Nat.mul_le_mul_right 100 (Nat.le_add_left tp tv)
      calc (if tv + tp = 0 then 0 else tp * 100 / (tv + tp))
          = tp * 100 / (tv + tp) := by simp [h0]
        _ ≤ (tv + tp) * 100 / (tv + tp) := Nat.div_le_div_right hmul
        _ = 100 := Nat.mul_div_cancel_left 100 hpos
  · intro p
    refine ⟨Nat.zero_le _, ?_⟩
    simp only [calculate_profile_score]
    exact Nat.min_le_right _ _

/-- The value `check_robots_txt` computes on a 404 answer, as an
equation: `found = false`, `accessible = true`, empty parse, and the
two 404 additions to the analysis. -/
theorem checkRobotsTxt_404_eq (url text : String) (elapsed : ℚ) (ctype : String)
    (hv : is_valid_url url = true) :
    check_robots_txt url (RobotsFetchOutcome.response 404 text elapsed ctype) =
      RobotsCheckOutput.result
        { found := false, accessible := true, status_code := 404, response_time := elapsed
          content_length := 0, content_type := ctype
          url := urlparseScheme url ++ "://" ++ urlparseNetloc url ++ "/robots.txt"
          error := none }
        emptyRobotsParsed
        { analyze_robots_txt emptyRobotsParsed url with
          seo_impact := (analyze_robots_txt emptyRobotsParsed url).seo_impact ++
            ["No robots.txt found - search engines will crawl all accessible content"]
          recommendations := (analyze_robots_txt emptyRobotsParsed url).recommendations ++
            ["Consider creating a robots.txt file to control crawler behavior"] }
        none := by
  unfold check_robots_txt
  rw [if_pos hv]
  rfl

/-- C8: when the robots.txt fetch itself succeeds but the server
answers 404, `check_robots_txt` reports `found = false` and
`accessible = true`, and its analysis recommends creating a robots.txt
file. -/
theorem robots_txt_404_recommendation (url text : String) (elapsed : ℚ) (ctype : String)
    (hv : is_valid_url url = true) :
    ∃ st pc an,
      check_robots_txt url (RobotsFetchOutcome.response 404 text elapsed ctype) =
        RobotsCheckOutput.result st pc an none ∧
      st.found = false ∧ st.accessible = true ∧
      "Consider creating a robots.txt file to control crawler behavior" ∈ an.recommendations := by
  refine ⟨_, _, _, checkRobotsTxt_404_eq url text elapsed ctype hv, rfl, rfl, ?_⟩
  exact List.mem_append_right _ (List.mem_singleton.mpr rfl)

/-- Witness for C8 at a concrete URL and 404 response. -/
theorem robots_txt_404_recommendation_witness :
    ∃ st pc an,
      check_robots_txt "http://a" (RobotsFetchOutcome.response 404 "" 0 "") =
        RobotsCheckOutput.result st pc an none ∧
      st.found = false ∧ st.accessible = true ∧
      "Consider creating a robots.txt file to control crawler behavior" ∈ an.recommendations :=
  robots_txt_404_recommendation "http://a" "" 0 "" (by decide)

/-- C9: the crawler's enqueue filter `_should_crawl_url` (exact netloc
equality) and the `_get_internal_links` same-domain classification
(which also accepts lower-cased, `www.`-prefixed and
subdomain-suffixed variants) are not equivalent: a `www.`-host link on
an apex-domain site is internal for the helper yet rejected for
enqueueing even with an empty visited set and a free budget. -/
theorem enqueue_filter_stricter_than_internal_helper :
    ∃ link base_url : String,
      is_internal_link link base_url = true ∧
      should_crawl_url link (baseDomainOf base_url) [] 10 = false := by
  refine ⟨"http://www.example.com/p", "http://example.com", ?_, ?_⟩
  · decide
  · decide

/-! ## Same-netloc frontier invariant (C2) -/

/-- `urlparse` does not change the netloc of `urlsplit`. -/
theorem urlparseL_netloc (url ds : List Char) :
    (urlparseL url ds).netloc = (urlsplitL url ds).netloc := by
  simp only [urlparseL]
  split <;> rfl

/-- `urlparse` does not change the scheme of `urlsplit`. -/
theorem urlparseL_scheme (url ds : List Char) :
    (urlparseL url ds).scheme = (urlsplitL url ds).scheme := by
  simp only [urlparseL]
  split <;> rfl

/-- The rest returned by the scheme split is part of the input. -/
theorem splitSchemeL_snd_subset (url ds : List Char) : (splitSchemeL url ds).2 ⊆ url := by
  simp only [splitSchemeL]
  split
  · exact List.drop_subset _ _
  · exact fun _ h => h

/-- Every netloc character is a non-delimiter character of the rest list. -/
theorem splitNetlocL_fst_chars (rest1 : List Char) :
    ∀ c ∈ (splitNetlocL rest1).1, isNetlocDelim c = false ∧ c ∈ rest1 := by
  intro c hc
  unfold splitNetlocL at hc
  split at hc
  · refine ⟨?_, ?_⟩
    · have := List.mem_takeWhile_imp hc
      simpa using this
    · have h1 : c ∈ rest1.drop 2 := (List.takeWhile_prefix _).subset hc
      exact List.drop_subset _ _ h1
  · simp at hc

/-- The netloc produced by `urlsplit` contains no delimiter and no
unsafe character. -/
theorem urlsplitL_netloc_chars (url ds : List Char) :
    ∀ c ∈ (urlsplitL url ds).netloc, isNetlocDelim c = false ∧ isUnsafeChar c = false := by
  intro c hc
  have hc' : c ∈ (splitNetlocL (splitSchemeL (removeUnsafe url) (removeUnsafe ds)).2).1 := hc
  obtain ⟨hdelim, hmem⟩ := splitNetlocL_fst_chars _ c hc'
  refine ⟨hdelim, ?_⟩
  have h2 : c ∈ removeUnsafe url := splitSchemeL_snd_subset _ _ hmem
  have h3 := List.of_mem_filter h2
  simpa using h3

/-- The scheme split on a reconstructed `scheme://netloc` string with a
four-letter lower-case scheme `http`. -/
theorem splitSchemeL_http (N : List Char) :
    splitSchemeL ("http".data ++ ':' :: '/' :: '/' :: N) [] = ("http".data, '/' :: '/' :: N) := by
  unfold splitSchemeL
  have hpre : ("http".data ++ ':' :: '/' :: '/' :: N).takeWhile (fun c => c ≠ ':') = "http".data := rfl
  rw [hpre]
  rw [if_pos]
  · rfl
  · refine ⟨?_, by decide, rfl, by decide⟩
    simp [List.length_append]

/-- The scheme split on a reconstructed string with scheme `https`. -/
theorem splitSchemeL_https (N : List Char) :
    splitSchemeL ("https".data ++ ':' :: '/' :: '/' :: N) [] = ("https".data, '/' :: '/' :: N) := by
  unfold splitSchemeL
  have hpre : ("https".data ++ ':' :: '/' :: '/' :: N).takeWhile (fun c => c ≠ ':') = "https".data := rfl
  rw [hpre]
  rw [if_pos]
  · rfl
  · refine ⟨?_, by decide, rfl, by decide⟩
    simp [List.length_append]

/-- Splitting the netloc off `'//' ++ N` recovers exactly `N` when `N`
contains no delimiter. -/
theorem splitNetlocL_clean (N : List Char) (hN : ∀ c ∈ N, isNetlocDelim c = false) :
    splitNetlocL ('/' :: '/' :: N) = (N, []) := by
  unfold splitNetlocL
  have hpre : ("//".data.isPrefixOf ('/' :: '/' :: N)) = true := by
    simp [List.isPrefixOf_iff_prefix]
  rw [if_pos hpre]
  have h1 : List.takeWhile (fun c => !(isNetlocDelim c)) N = N :=
    List.takeWhile_eq_self_iff.mpr (fun c hc => by simp [hN c hc])
  have h2 : List.dropWhile (fun c => !(isNetlocDelim c)) N = [] :=
    List.dropWhile_eq_nil_iff.mpr (fun c hc => by simp [hN c hc])
  show (List.takeWhile _ N, List.dropWhile _ N) = (N, [])
  rw [h1, h2]

/-- A clean list is untouched by the unsafe-byte filter. -/
theorem removeUnsafe_clean (N : List Char) (hN : ∀ c ∈ N, isUnsafeChar c = false) :
    removeUnsafe N = N :=
  List.filter_eq_self.mpr (fun c hc => by simp [hN c hc])

/-- The unsafe-byte filter distributes over append. -/
theorem removeUnsafe_append (a b : List Char) :
    removeUnsafe (a ++ b) = removeUnsafe a ++ removeUnsafe b :=
  List.filter_append a b

/-- The `'://' ++ N` part of a reconstructed base domain is clean for a
clean netloc `N`. -/
theorem removeUnsafe_sep (N : List Char) (hN : ∀ c ∈ N, isUnsafeChar c = false) :
    removeUnsafe (':' :: '/' :: '/' :: N) = ':' :: '/' :: '/' :: N := by
  refine removeUnsafe_clean _ ?_
  intro c hc
  rcases List.mem_cons.mp hc with h | hc
  · subst h; rfl
  rcases List.mem_cons.mp hc with h | hc
  · subst h; rfl
  rcases List.mem_cons.mp hc with h | hc
  · subst h; rfl
  · exact hN c hc

/-- `urlsplit` of the reconstructed `http://N` for a clean netloc `N`. -/
theorem urlsplitL_http_reconstructed (N : List Char)
    (hN : ∀ c ∈ N, isNetlocDelim c = false ∧ isUnsafeChar c = false) :
    urlsplitL ("http".data ++ ':' :: '/' :: '/' :: N) [] = ⟨"http".data, N, [], [], []⟩ := by
  have hfil : removeUnsafe ("http".data ++ ':' :: '/' :: '/' :: N) =
      "http".data ++ ':' :: '/' :: '/' :: N := by
    rw [removeUnsafe_append, removeUnsafe_sep N (fun c hc => (hN c hc).2)]
    rfl
  simp only [urlsplitL]
  rw [show removeUnsafe ([] : List Char) = [] from rfl, hfil, splitSchemeL_http]
  simp only
  rw [splitNetlocL_clean N (fun c hc => (hN c hc).1)]
  rfl

/-- `urlsplit` of the reconstructed `https://N` for a clean netloc `N`. -/
theorem urlsplitL_https_reconstructed (N : List Char)
    (hN : ∀ c ∈ N, isNetlocDelim c = false ∧ isUnsafeChar c = false) :
    urlsplitL ("https".data ++ ':' :: '/' :: '/' :: N) [] = ⟨"https".data, N, [], [], []⟩ := by
  have hfil : removeUnsafe ("https".data ++ ':' :: '/' :: '/' :: N) =
      "https".data ++ ':' :: '/' :: '/' :: N := by
    rw [removeUnsafe_append, removeUnsafe_sep N (fun c hc => (hN c hc).2)]
    rfl
  simp only [urlsplitL]
  rw [show removeUnsafe ([] : List Char) = [] from rfl, hfil, splitSchemeL_https]
  simp only
  rw [splitNetlocL_clean N (fun c hc => (hN c hc).1)]
  rfl

/-- What `_is_valid_url = True` gives: the scheme is `http` or `https`
and the netloc is nonempty. -/
theorem isValidUrl_facts {u : String} (h : is_valid_url u = true) :
    ((urlparseL u.data []).scheme = "http".data ∨ (urlparseL u.data []).scheme = "https".data) ∧
    (urlparseL u.data []).netloc ≠ [] := by
  unfold is_valid_url at h
  split at h
  · exact absurd h (by simp)
  · have h' := of_decide_eq_true h
    exact ⟨h'.2, h'.1.2⟩

/-- Reparsing the reconstructed `f"{scheme}://{netloc}"` base domain of
a valid URL recovers the URL's netloc (the check the crawler's enqueue
filter performs). -/
theorem parse_baseDomain {u : String} (h : is_valid_url u = true) :
    urlparseNetloc (baseDomainOf u) = urlparseNetloc u := by
  obtain ⟨hs, _⟩ := isValidUrl_facts h
  rw [urlparseL_scheme] at hs
  have hchars : ∀ c ∈ (urlsplitL u.data []).netloc,
      isNetlocDelim c = false ∧ isUnsafeChar c = false :=
    urlsplitL_netloc_chars u.data []
  have hdata : (baseDomainOf u).data =
      (urlsplitL u.data []).scheme ++ "://".data ++ (urlsplitL u.data []).netloc := by
    unfold baseDomainOf urlparseScheme urlparseNetloc
    rw [String.data_append, String.data_append, urlparseL_scheme, urlparseL_netloc]
  unfold urlparseNetloc
  rw [urlparseL_netloc, urlparseL_netloc]
  rcases hs with hs | hs
  · have hthis : (baseDomainOf u).data =
        "http".data ++ ':' :: '/' :: '/' :: (urlsplitL u.data []).netloc := by
      rw [hdata, hs]
      rfl
    rw [hthis, urlsplitL_http_reconstructed _ hchars]
  · have hthis : (baseDomainOf u).data =
        "https".data ++ ':' :: '/' :: '/' :: (urlsplitL u.data []).netloc := by
      rw [hdata, hs]
      rfl
    rw [hthis, urlsplitL_https_reconstructed _ hchars]

/-- A URL the enqueue filter accepts has exactly the netloc of the base
domain argument. -/
theorem shouldCrawlUrl_netloc {link bd : String} {vis : List String} {mp : Int}
    (h : should_crawl_url link bd vis mp = true) :
    urlparseNetloc link = urlparseNetloc bd := by
  unfold should_crawl_url at h
  split at h
  · exact absurd h (by simp)
  · split at h
    · exact absurd h (by simp)
    · split at h
      · exact absurd h (by simp)
      · exact of_decide_eq_true h

/-- Elements of the frontier after the enqueue loop either were already
queued or are links of the page that passed the enqueue filter. -/
theorem enqueueLinks_mem {bd : String} {vis : List String} {mp : Int} :
    ∀ (links : List String) (q : List String) (u : String),
      u ∈ enqueueLinks links bd vis mp q →
      u ∈ q ∨ (u ∈ links ∧ should_crawl_url u bd vis mp = true)
  | [], _, _, h => Or.inl h
  | l :: ls, q, u, h => by
    have h' : u ∈ enqueueLinks ls bd vis mp
        (if should_crawl_url l bd vis mp = true ∧ l ∉ q then q ++ [l] else q) := by
      simpa [enqueueLinks] using h
    rcases enqueueLinks_mem ls _ u h' with hq | ⟨hl, hsc⟩
    · by_cases hc : should_crawl_url l bd vis mp = true ∧ l ∉ q
      · rw [if_pos hc] at hq
        rcases List.mem_append.mp hq with h1 | h2
        · exact Or.inl h1
        · have h3 : u = l := List.mem_singleton.mp h2
          subst h3
          exact Or.inr ⟨List.mem_cons_self _ _, hc.1⟩
      · rw [if_neg hc] at hq
        exact Or.inl hq
    · exact Or.inr ⟨List.mem_cons_of_mem _ hl, hsc⟩

/-- The C2 invariant: everything in the frontier, the visited set, and
the result list is the start URL or shares its netloc exactly. -/
def sameNetlocInv (start : String) (s : CrawlState) : Prop :=
  (∀ u ∈ s.to_visit, u = start ∨ urlparseNetloc u = urlparseNetloc start) ∧
  (∀ u ∈ s.visited, u = start ∨ urlparseNetloc u = urlparseNetloc start) ∧
  (∀ p ∈ s.crawled_pages, p.url = start ∨ urlparseNetloc p.url = urlparseNetloc start)

/-- The same-netloc invariant is preserved by the loop (for a valid
start URL, whose reconstructed base domain reparses to its netloc). -/
theorem crawlLoop_sameNetloc (fetch : String → Except String PageData) (startUrl : String)
    (mp : Int) (hv : is_valid_url startUrl = true) (fuel : Nat) (s : CrawlState)
    (h : sameNetlocInv startUrl s) :
    sameNetlocInv startUrl (crawlLoop fetch startUrl mp fuel s) := by
  refine crawlLoop_inv fetch startUrl mp (sameNetlocInv startUrl) ?_ ?_ ?_ fuel s h
  · intro visited rest pages errs doms current h _ _
    exact ⟨fun u hu => h.1 u (List.mem_cons_of_mem _ hu), h.2.1, h.2.2⟩
  · intro visited rest pages errs doms current pd h _ _ _
    have hcur := h.1 current (List.mem_cons_self _ _)
    refine ⟨?_, ?_, ?_⟩
    · intro u hu
      rcases enqueueLinks_mem pd.links rest u hu with hq | ⟨_, hsc⟩
      · exact h.1 u (List.mem_cons_of_mem _ hq)
      · exact Or.inr ((shouldCrawlUrl_netloc hsc).trans (parse_baseDomain hv))
    · intro u hu
      rcases List.mem_append.mp hu with h1 | h2
      · exact h.2.1 u h1
      · rw [List.mem_singleton.mp h2]
        exact hcur
    · intro p hp
      rcases List.mem_append.mp hp with h1 | h2
      · exact h.2.2 p h1
      · rw [List.mem_singleton.mp h2]
        exact hcur
  · intro visited rest pages errs doms current e h _ _ _
    have hcur := h.1 current (List.mem_cons_self _ _)
    refine ⟨fun u hu => h.1 u (List.mem_cons_of_mem _ hu), ?_, ?_⟩
    · intro u hu
      rcases List.mem_append.mp hu with h1 | h2
      · exact h.2.1 u h1
      · rw [List.mem_singleton.mp h2]
        exact hcur
    · intro p hp
      rcases List.mem_append.mp hp with h1 | h2
      · exact h.2.2 p h1
      · rw [List.mem_singleton.mp h2]
        exact hcur

/-- C2: throughout every crawl of a valid start URL, every URL in the
frontier (other than the start URL itself) and every visited page has a
netloc string-equal to the start URL's netloc; a link with a different
netloc may sit in a page's links list but is never enqueued and never
becomes a visited entry.  First conjunct: every returned page is the
start URL or shares its netloc.  Second conjunct: the frontier/visited
netloc invariant is preserved by every step of the traversal. -/
theorem crawl_same_netloc_only :
    (∀ (fetch : String → Except String PageData) (url : String) (mp : Int) (fuel : Nat),
      is_valid_url url = true →
      ∀ p ∈ crawlPages (crawl_site fetch url mp fuel),
        p.url = url ∨ urlparseNetloc p.url = urlparseNetloc url) ∧
    (∀ (fetch : String → Except String PageData) (url : String) (mp : Int) (fuel : Nat)
      (s : CrawlState), is_valid_url url = true → sameNetlocInv url s →
      sameNetlocInv url (crawlLoop fetch url mp fuel s)) := by
  constructor
  · intro fetch url mp fuel hv p hp
    have hinit : sameNetlocInv url (initState url) := by
      refine ⟨?_, by simp [initState], by simp [initState]⟩
      intro u hu
      have h1 : u = url := List.mem_singleton.mp hu
      exact Or.inl h1
    have hinv := crawlLoop_sameNetloc fetch url (if mp > 100 then 100 else mp) hv fuel
      (initState url) hinit
    have hp' : p ∈ (crawlLoop fetch url (if mp > 100 then 100 else mp) fuel (initState url)).crawled_pages := by
      simpa [crawl_site, hv, crawl_with_playwright, crawlPages] using hp
    exact hinv.2.2 p hp'
  · intro fetch url mp fuel s hv h
    exact crawlLoop_sameNetloc fetch url mp hv fuel s h

/-- Witness for C2: a crawl whose first page links both to a same-host
page and to a cross-host page; the second result (the same-host link,
which failed to fetch) satisfies the netloc disjunction.  The
cross-host link `http://b/y` is in the first page's links list yet is
never visited (the crawl produces exactly these two pages). -/
theorem crawl_same_netloc_only_witness :
    (errorResult "http://a/x" "nope").url = "http://a" ∨
    urlparseNetloc (errorResult "http://a/x" "nope").url = urlparseNetloc "http://a" :=
  crawl_same_netloc_only.1
    (fun u => if u = "http://a"
      then Except.ok ⟨"T", 200, ["http://a/x", "http://b/y"], [], [], "t"⟩
      else Except.error "nope")
    "http://a" 10 5 (by decide) (errorResult "http://a/x" "nope") (by decide)

/-! ## Error-page isolation (C4) -/

/-- The C4 invariant: every accumulated result is either a success
record (no error) or the error record with empty links, resources,
metadata and text. -/
def errorPageInv (s : CrawlState) : Prop :=
  ∀ p ∈ s.crawled_pages,
    p.error = none ∨
    (p.error ≠ none ∧ p.links = [] ∧ p.resources = [] ∧ p.meta_data = [] ∧ p.text_content = "")

/-- The error-page invariant is preserved by the loop. -/
theorem crawlLoop_errorPageInv (fetch : String → Except String PageData) (startUrl : String)
    (mp : Int) (fuel : Nat) (s : CrawlState) (h : errorPageInv s) :
    errorPageInv (crawlLoop fetch startUrl mp fuel s) := by
  refine crawlLoop_inv fetch startUrl mp errorPageInv ?_ ?_ ?_ fuel s h
  · intro visited rest pages errs doms current h _ _
    exact h
  · intro visited rest pages errs doms current pd h _ _ _
    intro p hp
    rcases List.mem_append.mp hp with h1 | h2
    · exact h p h1
    · rw [List.mem_singleton.mp h2]
      exact Or.inl rfl
  · intro visited rest pages errs doms current e h _ _ _
    intro p hp
    rcases List.mem_append.mp hp with h1 | h2
    · exact h p h1
    · rw [List.mem_singleton.mp h2]
      exact Or.inr ⟨by simp [errorResult], rfl, rfl, rfl, rfl⟩

/-- C4: every element of the pages list returned by `crawl_site` either
has no error (a successfully extracted page) or carries a non-null
error together with empty links, resources, metadata and text — a
failed page never carries collected links.  Together with C1
(`len(pages) = |visited|`), a failed URL still occupies one visited
slot and one result, and the loop proceeds to the next frontier entry
(the error transition of the loop keeps crawling the remaining
frontier). -/
theorem crawl_error_pages_isolated (fetch : String → Except String PageData) (url : String)
    (mp : Int) (fuel : Nat) :
    ∀ p ∈ crawlPages (crawl_site fetch url mp fuel),
      p.error = none ∨
      (p.error ≠ none ∧ p.links = [] ∧ p.resources = [] ∧ p.meta_data = [] ∧
        p.text_content = "") := by
  intro p hp
  by_cases hv : is_valid_url url = true
  · have hinv := crawlLoop_errorPageInv fetch url (if mp > 100 then 100 else mp) fuel
      (initState url) (by intro q hq; simp [initState] at hq)
    have hp' : p ∈ (crawlLoop fetch url (if mp > 100 then 100 else mp) fuel (initState url)).crawled_pages := by
      simpa [crawl_site, hv, crawl_with_playwright, crawlPages] using hp
    exact hinv p hp'
  · have hv' : is_valid_url url = false := eq_false_of_ne_true hv
    simp [crawl_site, hv', crawlPages] at hp

/-- Witness for C4: the single result of a crawl whose only fetch
fails is the error record; the theorem applied to it yields the
disjunction. -/
theorem crawl_error_pages_isolated_witness :
    (errorResult "http://a" "net down").error = none ∨
    ((errorResult "http://a" "net down").error ≠ none ∧
      (errorResult "http://a" "net down").links = [] ∧
      (errorResult "http://a" "net down").resources = [] ∧
      (errorResult "http://a" "net down").meta_data = [] ∧
      (errorResult "http://a" "net down").text_content = "") :=
  crawl_error_pages_isolated (fun _ => Except.error "net down") "http://a" 5 3
    (errorResult "http://a" "net down") (by decide)

/-! ## Breadth-first discovery order (C3)

The frontier is a FIFO queue by construction: the loop pops
`to_visit.pop(0)` (the head) and the enqueue fold appends accepted
links at the back.  The observable consequence proved here: a page `B`
discoverable only through links of page `A` can be dequeued only after
`A`'s result has been appended, so `B`'s result index is strictly
larger than some index holding `A`'s result. -/

/-- The C3 invariant for a crawl looking at pages `A` and `B`:
whenever `B` sits in the frontier, `A` already has a result; and any
result for `B` at index `j` has a result for `A` at some index
`i < j`. -/
def bfsInv (A B : String) (s : CrawlState) : Prop :=
  (B ∈ s.to_visit → ∃ p ∈ s.crawled_pages, p.url = A) ∧
  (∀ (j : Nat) (p : CrawlResult), s.crawled_pages[j]? = some p → p.url = B →
    ∃ (i : Nat) (q : CrawlResult), i < j ∧ s.crawled_pages[i]? = some q ∧ q.url = A)

/-- Appending one result preserves and extends the index part of the
invariant: a new last element whose URL is `B` needs a prior `A`
result, which membership of `A` among the old results provides. -/
theorem bfsInv_snd_append (A B : String) (pages : List CrawlResult) (r : CrawlResult)
    (hold : ∀ (j : Nat) (p : CrawlResult), pages[j]? = some p → p.url = B →
      ∃ (i : Nat) (q : CrawlResult), i < j ∧ pages[i]? = some q ∧ q.url = A)
    (hnew : r.url = B → ∃ p ∈ pages, p.url = A) :
    ∀ (j : Nat) (p : CrawlResult), (pages ++ [r])[j]? = some p → p.url = B →
      ∃ (i : Nat) (q : CrawlResult), i < j ∧ (pages ++ [r])[i]? = some q ∧ q.url = A := by
  intro j p hj hpB
  by_cases hlt : j < pages.length
  · rw [List.getElem?_append_left hlt] at hj
    obtain ⟨i, q, hij, hiq, hqA⟩ := hold j p hj hpB
    exact ⟨i, q, hij, by rw [List.getElem?_append_left (hij.trans hlt)]; exact hiq, hqA⟩
  · have hjlen : j < pages.length + 1 := by
      have := (List.getElem?_eq_some.mp hj).1
      simpa using this
    have hje : j = pages.length := by omega
    subst hje
    have hpr : p = r := by
      have : (pages ++ [r])[pages.length]? = some r := by simp
      rw [this] at hj
      exact (Option.some.injEq _ _ ▸ hj).symm
    subst hpr
    obtain ⟨q, hq, hqA⟩ := hnew hpB
    obtain ⟨i, hiq⟩ := List.mem_iff_getElem?.mp hq
    have hilt : i < pages.length := by
      have := (List.getElem?_eq_some.mp hiq).1
      exact this
    exact ⟨i, q, hilt, by rw [List.getElem?_append_left hilt]; exact hiq, hqA⟩

/-- The BFS invariant is preserved by the loop, for a page `B` whose
only discoverer is `A`. -/
theorem crawlLoop_bfsInv (fetch : String → Except String PageData) (startUrl : String)
    (mp : Int) (A B : String)
    (hAB : ∀ u pd, fetch u = Except.ok pd → B ∈ pd.links → u = A)
    (fuel : Nat) (s : CrawlState) (h : bfsInv A B s) :
    bfsInv A B (crawlLoop fetch startUrl mp fuel s) := by
  refine crawlLoop_inv fetch startUrl mp (bfsInv A B) ?_ ?_ ?_ fuel s h
  · intro visited rest pages errs doms current h _ _
    exact ⟨fun hB => h.1 (List.mem_cons_of_mem _ hB), h.2⟩
  · intro visited rest pages errs doms current pd h _ _ hf
    refine ⟨?_, ?_⟩
    · intro hB
      rcases enqueueLinks_mem pd.links rest B hB with hq | ⟨hl, _⟩
      · obtain ⟨p, hp, hpA⟩ := h.1 (List.mem_cons_of_mem _ hq)
        exact ⟨p, List.mem_append_left _ hp, hpA⟩
      · have hcur : current = A := hAB current pd hf hl
        exact ⟨successResult current pd,
          List.mem_append_right _ (List.mem_singleton.mpr rfl), hcur⟩
    · refine bfsInv_snd_append A B pages (successResult current pd) h.2 ?_
      intro hB
      have hBin : B ∈ current :: rest := by
        have : (successResult current pd).url = current := rfl
        rw [this] at hB
        rw [hB]
        exact List.mem_cons_self _ _
      exact h.1 hBin
  · intro visited rest pages errs doms current e h _ _ _
    refine ⟨?_, ?_⟩
    · intro hB
      obtain ⟨p, hp, hpA⟩ := h.1 (List.mem_cons_of_mem _ hB)
      exact ⟨p, List.mem_append_left _ hp, hpA⟩
    · refine bfsInv_snd_append A B pages (errorResult current e) h.2 ?_
      intro hB
      have hBin : B ∈ current :: rest := by
        have : (errorResult current e).url = current := rfl
        rw [this] at hB
        rw [hB]
        exact List.mem_cons_self _ _
      exact h.1 hBin

/-- C3: the frontier is FIFO (head pop, back append), so traversal is
breadth-first; consequently, if `B ≠ start` and the only page whose
links contain `B` is `A`, then any result for `B` in the returned pages
list is preceded (at a strictly smaller index) by a result for `A`. -/
theorem crawl_bfs_parent_before_child
    (fetch : String → Except String PageData) (url : String) (mp : Int) (fuel : Nat)
    (A B : String) (hBne : B ≠ url)
    (hAB : ∀ u pd, fetch u = Except.ok pd → B ∈ pd.links → u = A) :
    ∀ (j : Nat) (p : CrawlResult),
      (crawlPages (crawl_site fetch url mp fuel))[j]? = some p → p.url = B →
      ∃ (i : Nat) (q : CrawlResult), i < j ∧
        (crawlPages (crawl_site fetch url mp fuel))[i]? = some q ∧ q.url = A := by
  intro j p hj hpB
  by_cases hv : is_valid_url url = true
  · have hinit : bfsInv A B (initState url) := by
      refine ⟨?_, ?_⟩
      · intro hB
        exact absurd (List.mem_singleton.mp hB) hBne
      · intro j p hj _
        simp [initState] at hj
    have hinv := crawlLoop_bfsInv fetch url (if mp > 100 then 100 else mp) A B hAB fuel
      (initState url) hinit
    have hpages : crawlPages (crawl_site fetch url mp fuel) =
        (crawlLoop fetch url (if mp > 100 then 100 else mp) fuel (initState url)).crawled_pages := by
      simp [crawl_site, hv, crawl_with_playwright, crawlPages]
    rw [hpages] at hj ⊢
    exact hinv.2 j p hj hpB
  · have hv' : is_valid_url url = false := eq_false_of_ne_true hv
    simp [crawl_site, hv', crawlPages] at hj

/-- The three-page fixture fetch used in the C3 witness: the start page
links to one same-host page, which links nowhere. -/
def bfsWitnessFetch : String → Except String PageData := fun u =>
  if u = "http://a" then Except.ok ⟨"A", 200, ["http://a/b"], [], [], ""⟩
  else if u = "http://a/b" then Except.ok ⟨"B", 200, [], [], [], ""⟩
  else Except.error "e"

/-- Witness for C3: in the concrete crawl, the page discovered only via
the start page appears at index 1, and the theorem produces the start
page's result before it. -/
theorem crawl_bfs_parent_before_child_witness :
    ∃ i q, i < 1 ∧
      (crawlPages (crawl_site bfsWitnessFetch "http://a" 10 5))[i]? = some q ∧
      q.url = "http://a" :=
  crawl_bfs_parent_before_child bfsWitnessFetch "http://a" 10 5 "http://a" "http://a/b"
    (by decide)
    (by
      intro u pd h hB
      by_cases h1 : u = "http://a"
      · exact h1
      · by_cases h2 : u = "http://a/b"
        · subst h2
          simp [bfsWitnessFetch, h1] at h
          rw [← h] at hB
          simp at hB
        · simp [bfsWitnessFetch, h1, h2] at h)
    1 (successResult "http://a/b" ⟨"B", 200, [], [], [], ""⟩) (by decide) rfl

/-! ## Idempotence of `_normalize_url` (C6) -/

/-- `startswith` is list-prefix on the character data. -/
theorem pyStartsWith_iff {s p : String} : pyStartsWith s p = true ↔ p.data <+: s.data := by
  simp [pyStartsWith, List.isPrefixOf_iff_prefix]

/-- A prefix survives the optional suffix appends of `urlunsplit`
(query and fragment). -/
theorem prefix_if_append (l X y : List Char) (c : Char) (cond : Prop) [Decidable cond]
    (h : l <+: X) :
    l <+: (if cond then X ++ c :: y else X) := by
  split
  · exact h.trans (List.prefix_append X (c :: y))
  · exact h

/-- `urlunparse` output begins with `scheme://` whenever the netloc is
nonempty and the scheme is `http` or `https` — regardless of path,
params, query and fragment. -/
theorem unparse_startsWith (scheme netloc path params query fragment : List Char)
    (hs : scheme = "http".data ∨ scheme = "https".data) (hn : netloc ≠ []) :
    "http://".data <+: urlunparseL scheme netloc path params query fragment ∨
    "https://".data <+: urlunparseL scheme netloc path params query fragment := by
  have hsne : scheme ≠ [] := by
    rcases hs with h | h <;> rw [h] <;> decide
  simp only [urlunparseL, urlunsplitL]
  set p2 := if params ≠ [] then path ++ ';' :: params else path with hp2
  rw [if_pos (Or.inl hn : netloc ≠ [] ∨ (scheme ≠ [] ∧ scheme ∈ usesNetloc ∧
    ¬ (("//".data.isPrefixOf p2) = true)))]
  set p3 := if p2 ≠ [] ∧ ¬ (("/".data.isPrefixOf p2) = true) then '/' :: p2 else p2 with hp3
  rw [if_pos hsne]
  have hbase : ("http://".data <+: scheme ++ ':' :: '/' :: '/' :: (netloc ++ p3)) ∨
      ("https://".data <+: scheme ++ ':' :: '/' :: '/' :: (netloc ++ p3)) := by
    rcases hs with h | h
    · left
      rw [h]
      exact ⟨netloc ++ p3, rfl⟩
    · right
      rw [h]
      exact ⟨netloc ++ p3, rfl⟩
  rcases hbase with h | h
  · exact Or.inl (prefix_if_append _ _ _ _ _ (prefix_if_append _ _ _ _ _ h))
  · exact Or.inr (prefix_if_append _ _ _ _ _ (prefix_if_append _ _ _ _ _ h))

/-- A valid URL has nonempty character data. -/
theorem isValidUrl_data_ne {u : String} (h : is_valid_url u = true) : u.data ≠ [] := by
  intro hnil
  have hfacts := isValidUrl_facts h
  rw [hnil] at hfacts
  have hempty : urlparseL ([] : List Char) [] = ⟨[], [], [], [], [], []⟩ := rfl
  rw [hempty] at hfacts
  exact hfacts.2 rfl

/-- Case analysis of `urljoin` over a valid http/https base: the result
is either the second argument unchanged (foreign scheme) or an absolute
URL starting with `http://` or `https://`. -/
theorem urljoinL_valid_base (base url : List Char)
    (hbs : (urlparseL base []).scheme = "http".data ∨ (urlparseL base []).scheme = "https".data)
    (hbn : (urlparseL base []).netloc ≠ [])
    (hbne : base ≠ []) (hune : url ≠ []) :
    urljoinL base url = url ∨
    "http://".data <+: urljoinL base url ∨ "https://".data <+: urljoinL base url := by
  simp only [urljoinL]
  rw [if_neg hbne, if_neg hune]
  by_cases h1 : (urlparseL url (urlparseL base []).scheme).scheme ≠ (urlparseL base []).scheme ∨
      (urlparseL url (urlparseL base []).scheme).scheme ∉ usesRelative
  · rw [if_pos h1]
    exact Or.inl rfl
  · rw [if_neg h1]
    push_neg at h1
    have husch : (urlparseL url (urlparseL base []).scheme).scheme = "http".data ∨
        (urlparseL url (urlparseL base []).scheme).scheme = "https".data := by
      rw [h1.1]
      exact hbs
    have husesN : (urlparseL url (urlparseL base []).scheme).scheme ∈ usesNetloc := by
      rcases husch with h | h <;> rw [h] <;> decide
    by_cases h2 : (urlparseL url (urlparseL base []).scheme).scheme ∈ usesNetloc ∧
        (urlparseL url (urlparseL base []).scheme).netloc ≠ []
    · rw [if_pos h2]
      exact Or.inr (unparse_startsWith _ _ _ _ _ _ husch h2.2)
    · rw [if_neg h2, if_pos husesN]
      split
      · exact Or.inr (unparse_startsWith _ _ _ _ _ _ husch hbn)
      · exact Or.inr (unparse_startsWith _ _ _ _ _ _ husch hbn)

/-- C6 (amended: idempotence holds for every base URL that passes
`_is_valid_url`; the already-absolute part holds for every base).
First conjunct: for a valid http/https `base_url`, applying
`_normalize_url` twice with the same base equals applying it once.
Second conjunct: an href that already starts with `http://` or
`https://` is returned unchanged. -/
theorem normalize_url_idempotent_amended :
    (∀ (url base_url : String), is_valid_url base_url = true →
      normalize_url (normalize_url url base_url) base_url = normalize_url url base_url) ∧
    (∀ (url base_url : String),
      (pyStartsWith url "http://" || pyStartsWith url "https://") = true →
      normalize_url url base_url = url) := by
  have habs : ∀ (url base_url : String),
      (pyStartsWith url "http://" || pyStartsWith url "https://") = true →
      normalize_url url base_url = url := by
    intro url base h
    have hne : url ≠ "" := by
      intro he
      subst he
      simp [pyStartsWith] at h
    unfold normalize_url
    rw [if_neg hne, if_pos h]
  refine ⟨?_, habs⟩
  intro url base hb
  by_cases h1 : url = ""
  · subst h1
    simp [normalize_url]
  · by_cases h2 : (pyStartsWith url "http://" || pyStartsWith url "https://") = true
    · rw [habs url base h2]
      exact habs url base h2
    · by_cases h3 : pyStartsWith url "//" = true
      · obtain ⟨hs, -⟩ := isValidUrl_facts hb
        obtain ⟨t, ht⟩ := pyStartsWith_iff.mp h3
        have hr : (pyStartsWith (urlparseScheme base ++ ":" ++ url) "http://" ||
            pyStartsWith (urlparseScheme base ++ ":" ++ url) "https://") = true := by
          rcases hs with hs | hs
          · have hscheme : urlparseScheme base = "http" := by
              unfold urlparseScheme
              rw [hs]
            rw [hscheme]
            have hpre : "http://".data <+: ("http" ++ ":" ++ url).data := by
              refine ⟨t, ?_⟩
              rw [String.data_append, String.data_append, ← ht]
              rfl
            rw [Bool.or_eq_true]
            exact Or.inl (pyStartsWith_iff.mpr hpre)
          · have hscheme : urlparseScheme base = "https" := by
              unfold urlparseScheme
              rw [hs]
            rw [hscheme]
            have hpre : "https://".data <+: ("https" ++ ":" ++ url).data := by
              refine ⟨t, ?_⟩
              rw [String.data_append, String.data_append, ← ht]
              rfl
            rw [Bool.or_eq_true]
            exact Or.inr (pyStartsWith_iff.mpr hpre)
        have hinner : normalize_url url base = urlparseScheme base ++ ":" ++ url := by
          unfold normalize_url
          rw [if_neg h1, if_neg h2, if_pos h3]
        rw [hinner]
        exact habs _ base hr
      · have hjoin : normalize_url url base = urljoin base url := by
          unfold normalize_url
          rw [if_neg h1, if_neg h2, if_neg h3]
        obtain ⟨hbs, hbn⟩ := isValidUrl_facts hb
        have hudne : url.data ≠ [] := fun hh => h1 (String.ext hh)
        rcases urljoinL_valid_base base.data url.data hbs hbn (isValidUrl_data_ne hb) hudne
          with hcase | hcase | hcase
        · have heq : urljoin base url = url := by
            unfold urljoin
            rw [hcase]
          rw [hjoin, heq, hjoin]
          exact heq
        · have hstart : (pyStartsWith (urljoin base url) "http://" ||
              pyStartsWith (urljoin base url) "https://") = true := by
            rw [Bool.or_eq_true]
            exact Or.inl (pyStartsWith_iff.mpr hcase)
          rw [hjoin]
          exact habs _ base hstart
        · have hstart : (pyStartsWith (urljoin base url) "http://" ||
              pyStartsWith (urljoin base url) "https://") = true := by
            rw [Bool.or_eq_true]
            exact Or.inr (pyStartsWith_iff.mpr hcase)
          rw [hjoin]
          exact habs _ base hstart

/-- Counterexample for C6 as stated ("for every href string and
base_url"): with the schemeless relative base `"a/b/c"` (which
`urllib.parse.urljoin` happily path-merges against) and href `"d"`,
the first normalization gives `"a/b/d"`, but normalizing that result
again against the same base gives `"a/b/a/b/d"` — not idempotent.  The
claim needs the base to be a valid absolute http/https URL, which is
what the crawler always passes. -/
theorem normalize_url_idempotent_counterexample :
    normalize_url "d" "a/b/c" = "a/b/d" ∧
    normalize_url (normalize_url "d" "a/b/c") "a/b/c" = "a/b/a/b/d" ∧
    normalize_url (normalize_url "d" "a/b/c") "a/b/c" ≠ normalize_url "d" "a/b/c" :=
  ⟨by decide, by decide, by decide⟩

/-- Witness for C6 (amended) at a valid base and at an already-absolute
href. -/
theorem normalize_url_idempotent_amended_witness :
    normalize_url (normalize_url "d" "http://x/a/b") "http://x/a/b" =
      normalize_url "d" "http://x/a/b" ∧
    normalize_url "https://q" "a/b" = "https://q" :=
  ⟨normalize_url_idempotent_amended.1 "d" "http://x/a/b" (by decide),
   normalize_url_idempotent_amended.2 "https://q" "a/b" (by decide)⟩

end WebAudit
